import Mathlib

/-!
A shallow embedding of the C++ binding generator `src/bindings/cpp_generator.py`
of the nats.c repository, together with theorems relating its behaviour to the
natural-language specification of the generator.

Python strings are modelled as Lean `String`s, and the Python string methods the
generator uses (`replace`, `startswith`, `endswith`, `count`, `strip`,
`split('_', 2)`, slicing, `join`) are re-implemented below with the semantics of
the Python originals (for the non-empty patterns the generator actually passes
to `replace`).  The documentation-comment fields the generator copies around
(`brief_comment`, `raw_comment`) are omitted: they are never inspected and do
not influence the structure of the produced model.  Code paths that can raise a
Python `IndexError` (indexing `token[1]` of a name without an underscore, and
`original_parameters[-1]` of an empty recovered parameter list) are modelled
with `Option`.
-/

namespace CppGen

/-- Python `s[:n]` (slicing counts code points). -/
def pyTake (n : Nat) (s : String) : String := String.mk (s.toList.take n)

/-- Python `s[n:]` (slicing counts code points). -/
def pyDrop (n : Nat) (s : String) : String := String.mk (s.toList.drop n)

/-- Python `s.startswith(p)`. -/
def pyStartswith (s p : String) : Bool := p.toList.isPrefixOf s.toList

/-- Python `s.endswith(p)`. -/
def pyEndswith (s p : String) : Bool := p.toList.isSuffixOf s.toList

/-- Python `s.count(c)` for a single-character pattern `c`. -/
def pyCountChar (s : String) (c : Char) : Nat := s.toList.count c

/-- Python `s.strip()` (the generator only ever strips ASCII blanks). -/
def pyStrip (s : String) : String :=
  String.mk (((s.toList.dropWhile Char.isWhitespace).reverse.dropWhile Char.isWhitespace).reverse)

/-- One fuel-indexed left-to-right pass of Python `str.replace` over a character
list: each occurrence of `pat` is replaced by `rep`, scanning resumes after the
replaced occurrence.  The fuel is an upper bound on the list length, so the
`fuel = 0` branch is never reached by `pyReplace`. -/
def replaceLoop (pat rep : List Char) : Nat → List Char → List Char
  | 0, s => s
  | _ + 1, [] => []
  | fuel + 1, c :: cs =>
    if !pat.isEmpty && pat.isPrefixOf (c :: cs) then
      rep ++ replaceLoop pat rep fuel (cs.drop (pat.length - 1))
    else
      c :: replaceLoop pat rep fuel cs

/-- Python `s.replace(pat, rep)` for the non-empty patterns the generator uses
(`"const "`, `"*"`, `"void"` and a 4-character namespace name); for an empty
pattern this model is the identity. -/
def pyReplace (s pat rep : String) : String :=
  String.mk (replaceLoop pat.toList rep.toList s.toList.length s.toList)

/-- Splits a character list at its first underscore, if any. -/
def breakUnderscore : List Char → Option (List Char × List Char)
  | [] => none
  | c :: cs =>
    if c = '_' then some ([], cs)
    else (breakUnderscore cs).map (fun q => (c :: q.1, q.2))

/-- Python `s.split('_', 2)`: at most the first two underscores split. -/
def pySplit2 (s : String) : List String :=
  match breakUnderscore s.toList with
  | none => [s]
  | some (a, b) =>
    match breakUnderscore b with
    | none => [String.mk a, String.mk b]
    | some (c, d) => [String.mk a, String.mk c, String.mk d]

/-- Python `sep.join(parts)`. -/
def pyJoin (sep : String) : List String → String
  | [] => ""
  | [x] => x
  | x :: y :: xs => x ++ sep ++ pyJoin sep (y :: xs)

/-- The constant `CONSTRUCTER_SUFFIX` of the generator. -/
def CONSTRUCTER_SUFFIX : String := "_Create"

/-- The constant `DESTRUCTER_SUFFIX` of the generator. -/
def DESTRUCTER_SUFFIX : String := "_Destroy"

/-- `get_type` of the generator: clang spells the C type `_Bool` that way, the
generator rewrites it to `bool` and keeps every other spelling. -/
def get_type (spelling : String) : String :=
  if spelling == "_Bool" then "bool" else spelling

/-- The fragment of a clang type object the generator inspects: its spelling
and, when the type is a fixed-size array (`TypeKind.CONSTANTARRAY`), the
element type's spelling and the element count. -/
structure ClangType where
  spelling : String
  arrayElement : Option (String × Nat)
  deriving DecidableEq, Repr

/-- The kinds of child cursors of a typedef declaration the generator
distinguishes (`CursorKind.ENUM_DECL`, `CursorKind.TYPE_REF`, anything else is
walked as a parameter). -/
inductive ChildKind where
  | enumDecl
  | typeRef
  | paramDecl
  deriving DecidableEq, Repr

/-- A child cursor of a typedef declaration: its kind, its type and its
spelling. -/
structure ChildCursor where
  kind : ChildKind
  type : ClangType
  spelling : String
  deriving DecidableEq, Repr

/-- An argument cursor of a function declaration (an element of
`cursor.get_arguments()`): its type and its spelling. -/
structure ParamCursor where
  type : ClangType
  spelling : String
  deriving DecidableEq, Repr

/-- A top-level declaration as delivered by the clang front end: the fields of
the cursor the `parse` function inspects. -/
inductive Decl where
  | functionDecl (spelling : String) (resultTypeSpelling : String) (args : List ParamCursor)
  | typedefDecl (spelling : String) (children : List ChildCursor)
  | otherDecl (spelling : String)
  deriving DecidableEq, Repr

/-- The spelling of a declaration cursor. -/
def Decl.spelling : Decl → String
  | .functionDecl sp _ _ => sp
  | .typedefDecl sp _ => sp
  | .otherDecl sp => sp

/-- The class `FunctionParameter` of the generator. -/
structure FunctionParameter where
  type : String
  element_count : Nat
  name : String
  deriving DecidableEq, Repr

/-- `FunctionParameter.__init__`: a fixed-size array parameter is resolved into
its element type and count, every other parameter keeps its type spelling. -/
def FunctionParameter.ofCursor (t : ClangType) (nm : String) : FunctionParameter :=
  match t.arrayElement with
  | some q => { type := get_type q.1, element_count := q.2, name := nm }
  | none => { type := get_type t.spelling, element_count := 0, name := nm }

/-- `FunctionParameter.plain_type`: the type spelling with every `*` removed
and surrounding blanks stripped. -/
def FunctionParameter.plain_type (p : FunctionParameter) : String :=
  pyStrip (pyReplace p.type ("*") (""))

/-- `FunctionParameter.argument`. -/
def FunctionParameter.argument (p : FunctionParameter) : String := p.name

/-- `FunctionParameter.parameter`: the rendered C++ parameter, with a trailing
`[n]` for resolved array parameters. -/
def FunctionParameter.parameter (p : FunctionParameter) : String :=
  p.type ++ " " ++ p.name ++ (if p.element_count ≠ 0 then "[" ++ toString p.element_count ++ "]" else "")

/-- The class `Function` of the generator (documentation-comment fields
omitted). -/
structure Function where
  original_function : String
  result_type : String
  nspace : String
  type : String
  name : String
  is_const : Bool
  with_exception : Bool
  parameters : List FunctionParameter
  deriving DecidableEq, Repr

/-- `Function.__init__`.  `token = spelling.split('_', 2)` is indexed at `1`,
which raises `IndexError` when the name holds no underscore; that failure is
`none` here.  A `natsStatus` result is replaced by `void` with
`with_exception` set. -/
def Function.ofCursor (spelling resultTypeSpelling : String) (args : List ParamCursor) : Option Function :=
  match pySplit2 spelling with
  | t0 :: t1 :: _ =>
    some
      { original_function := spelling
        result_type :=
          if get_type resultTypeSpelling == "natsStatus" then "void" else get_type resultTypeSpelling
        nspace := pyTake 4 t0
        type := pyDrop 4 t0
        name := t1
        is_const := false
        with_exception := get_type resultTypeSpelling == "natsStatus"
        parameters := args.map (fun a => FunctionParameter.ofCursor a.type a.spelling) }
  | _ => none

/-- `Function.is_constructor`: the name ends in the constructor suffix. -/
def Function.is_constructor (f : Function) : Bool :=
  pyEndswith f.original_function CONSTRUCTER_SUFFIX

/-- `Function.is_destructor`: the name ends in the destructor suffix. -/
def Function.is_destructor (f : Function) : Bool :=
  pyEndswith f.original_function DESTRUCTER_SUFFIX

/-- `FunctionProxy.invocation`: the dispatched call, wrapped in
`Exception::CheckResult` when the function's result was the status-code
type. -/
def invocationString (orig : String) (withExc : Bool) (args : List String) : String :=
  let ret := orig ++ "(" ++ pyJoin (", ") args ++ ")"
  if withExc then "Exception::CheckResult(" ++ ret ++ ")" else ret

/-- The class `GlobalFunction` of the generator. -/
structure GlobalFunction where
  function : Function
  arguments_ : List String
  parameters_ : List String
  deriving DecidableEq, Repr

/-- `GlobalFunction.__init__`. -/
def GlobalFunction.ofFunction (f : Function) : GlobalFunction :=
  { function := f
    arguments_ := f.parameters.map FunctionParameter.argument
    parameters_ := f.parameters.map FunctionParameter.parameter }

/-- `GlobalFunction`'s inherited `invocation` property. -/
def GlobalFunction.invocation (g : GlobalFunction) : String :=
  invocationString g.function.original_function g.function.with_exception g.arguments_

/-- The class `Method` of the generator: the per-parameter loop of
`Method.__init__` threads exactly this state.  `temporary_object` is `False`
initially in the source and possibly assigned a string later; it is an
`Option String` here, with Python truthiness (`none` and `some ""` are
falsy). -/
structure Method where
  function : Function
  arguments_ : List String
  parameters_ : List String
  forward_arguments_ : List String
  forward_parameters_ : List String
  template_parameter_ : List String
  is_constructor : Bool
  is_destructor : Bool
  is_const : Bool
  temporary_object : Option String
  type_number : Nat
  next_parameter_type : Option String
  deriving DecidableEq, Repr

/-- The class `Class` of the generator (documentation-comment fields
omitted). -/
structure Class where
  original_type : String
  nspace : String
  name : String
  methods : List Method
  deriving DecidableEq, Repr

/-- The receiver test of `Method.__init__`:
`p.type.replace('const ', '').startswith(this.original_type)`. -/
def receiverCond (this : Class) (p : FunctionParameter) : Bool :=
  pyStartswith (pyReplace p.type ("const ") ("")) this.original_type

/-- The temporary-output test of `Method.__init__`:
`p.type.count('*') == 2 and p.type.startswith(this.namespace)`. -/
def temporaryCond (this : Class) (p : FunctionParameter) : Bool :=
  pyCountChar p.type '*' == 2 && pyStartswith p.type this.nspace

/-- The rendered callback template name of `Method.__init__`: the typedef name
with its 4-character namespace dropped, qualified with `ns::` when that
namespace differs from the method's own. -/
def templateBase (fnspace : String) (ptype : String) : String :=
  let tns := pyTake 4 ptype
  let tmpl0 := pyDrop 4 ptype
  if tns == fnspace then tmpl0 else tns ++ "::" ++ tmpl0

/-- One iteration of the parameter loop of `Method.__init__`. -/
def methodStep (this : Class) (fts : List String) (m : Method) (p : FunctionParameter) : Method :=
  if receiverCond this p then
    if pyCountChar p.type '*' == 2 then
      { m with is_constructor := true, arguments_ := m.arguments_ ++ ["&self"] }
    else
      { m with is_const := pyStartswith p.type ("const "), arguments_ := m.arguments_ ++ ["self"] }
  else if temporaryCond this p then
    { m with temporary_object := some (pyReplace p.plain_type this.nspace (""))
             arguments_ := m.arguments_ ++ ["&ret.self"] }
  else
    let m1 := { m with arguments_ := m.arguments_ ++ [p.argument]
                       parameters_ := m.parameters_ ++ [p.parameter] }
    if fts.contains p.type then
      let tn := m.type_number + 1
      let npt := "T" ++ toString tn
      let tmpl := templateBase m.function.nspace p.type
      { m1 with type_number := tn
                next_parameter_type := some npt
                forward_arguments_ :=
                  m1.forward_arguments_ ++ ["&" ++ tmpl ++ "Callback<" ++ npt ++ ", callback" ++ toString tn ++ ">"]
                template_parameter_ :=
                  m1.template_parameter_ ++ ["typename " ++ npt, tmpl ++ "<" ++ npt ++ "> callback" ++ toString tn] }
    else
      match m.next_parameter_type with
      | some npt =>
        { m1 with forward_parameters_ := m1.forward_parameters_ ++ [pyReplace p.parameter ("void") npt]
                  forward_arguments_ := m1.forward_arguments_ ++ [p.argument]
                  next_parameter_type := none }
      | none =>
        { m1 with forward_parameters_ := m1.forward_parameters_ ++ [p.parameter]
                  forward_arguments_ := m1.forward_arguments_ ++ [p.argument] }

/-- The state of `Method.__init__` before its parameter loop runs: empty
lists, flags inherited from the function's name suffixes. -/
def Method.init (f : Function) : Method :=
  { function := f
    arguments_ := []
    parameters_ := []
    forward_arguments_ := []
    forward_parameters_ := []
    template_parameter_ := []
    is_constructor := f.is_constructor
    is_destructor := f.is_destructor
    is_const := false
    temporary_object := none
    type_number := 0
    next_parameter_type := none }

/-- `Method.__init__`: fold the parameter loop over the function's
parameters, starting from flags inherited from the function's name. -/
def Method.ofFunction (f : Function) (this : Class) (fts : List String) : Method :=
  f.parameters.foldl (methodStep this fts) (Method.init f)

/-- `Method.result_type`: the temporary-output class short name takes
precedence over the function's declared result type when it is truthy. -/
def Method.result_type (m : Method) : String :=
  match m.temporary_object with
  | some t => if t == "" then m.function.result_type else t
  | none => m.function.result_type

/-- `Method`'s inherited `invocation` property. -/
def Method.invocation (m : Method) : String :=
  invocationString m.function.original_function m.function.with_exception m.arguments_

/-- The class `Enum` of the generator. -/
structure Enum where
  name : String
  deriving DecidableEq, Repr

/-- `Enum.__init__`. -/
def Enum.ofCursor (spelling : String) : Enum :=
  { name := spelling }

/-- The class `Typedef` of the generator (documentation-comment fields
omitted). -/
structure Typedef where
  name : String
  original_name : String
  deriving DecidableEq, Repr

/-- `Typedef.__init__`. -/
def Typedef.ofCursor (spelling : String) : Typedef :=
  { name := spelling, original_name := spelling }

/-- The class `FunctionTypedef` of the generator. -/
structure FunctionTypedef where
  original_name : String
  nspace : String
  name : String
  result_type : String
  original_parameters : List FunctionParameter
  wrapper : List String
  arguments_ : List String
  parameters_ : List String
  has_closure : Bool
  deriving DecidableEq, Repr

/-- The adaptation loop of `FunctionTypedef.__init__` over the non-trailing
parameters: a parameter in the typedef's own namespace that is not
`natsStatus` is wrapped (`natsMsg` by move-construction, everything else by a
named non-owning `WithoutDestuction` wrapper recorded in `wrapper`); every
other parameter passes through unchanged.  Returns
`(arguments_, parameters_, wrapper)` in iteration order. -/
def adaptLoop (ns : String) : List FunctionParameter → List String × List String × List String
  | [] => ([], [], [])
  | p :: ps =>
    let rest := adaptLoop ns ps
    if pyStartswith p.type ns && p.type != "natsStatus" then
      if p.plain_type == "natsMsg" then
        ((pyDrop 4 p.plain_type ++ "(" ++ p.name ++ ")") :: rest.1,
         (pyDrop 4 p.plain_type ++ " &&") :: rest.2.1,
         rest.2.2)
      else
        ((p.name ++ "_") :: rest.1,
         (pyDrop 4 p.plain_type ++ " &") :: rest.2.1,
         (pyDrop 4 p.plain_type ++ "::WithoutDestuction " ++ p.name ++ "_(" ++ p.name ++ ")") :: rest.2.2)
    else
      (p.argument :: rest.1, p.parameter :: rest.2.1, rest.2.2)

/-- The result type a `FunctionTypedef` recovers from its children: the last
`TYPE_REF` child's type spelling, defaulting to `void`. -/
def FunctionTypedef.resultTypeOf (children : List ChildCursor) : String :=
  ((children.filterMap fun c =>
      if c.kind == ChildKind.typeRef then some c.type.spelling else none).getLast?).getD ("void")

/-- The parameters a `FunctionTypedef` recovers from its children: every
non-`TYPE_REF` child, in order. -/
def FunctionTypedef.paramsOf (children : List ChildCursor) : List FunctionParameter :=
  children.filterMap fun c =>
    if c.kind == ChildKind.typeRef then none
    else some (FunctionParameter.ofCursor c.type c.spelling)

/-- `FunctionTypedef.__init__`.  The children are walked once: the last
`TYPE_REF` child provides the result type (default `void`), every other child
is recovered as a parameter.  `original_parameters[-1]` raises `IndexError` on
an empty parameter list (`none` here); without the closure convention
(`has_closure`, the last parameter being named `closure`) the adapted lists
stay empty. -/
def FunctionTypedef.ofCursor (spelling : String) (children : List ChildCursor) : Option FunctionTypedef :=
  match (FunctionTypedef.paramsOf children).getLast? with
  | none => none
  | some lastp =>
    if lastp.name == "closure" then
      some
        { original_name := spelling
          nspace := pyTake 4 spelling
          name := pyDrop 4 spelling
          result_type := FunctionTypedef.resultTypeOf children
          original_parameters := FunctionTypedef.paramsOf children
          wrapper := (adaptLoop (pyTake 4 spelling) (FunctionTypedef.paramsOf children).dropLast).2.2
          arguments_ := (adaptLoop (pyTake 4 spelling) (FunctionTypedef.paramsOf children).dropLast).1
          parameters_ := (adaptLoop (pyTake 4 spelling) (FunctionTypedef.paramsOf children).dropLast).2.1
          has_closure := lastp.name == "closure" }
    else
      some
        { original_name := spelling
          nspace := pyTake 4 spelling
          name := pyDrop 4 spelling
          result_type := FunctionTypedef.resultTypeOf children
          original_parameters := FunctionTypedef.paramsOf children
          wrapper := []
          arguments_ := []
          parameters_ := []
          has_closure := lastp.name == "closure" }

/-- The class `Namespace` of the generator. -/
structure Namespace where
  name : String
  classes : List Class
  functions : List GlobalFunction
  function_typedefs : List FunctionTypedef
  include_guard : Option String
  deriving DecidableEq, Repr

/-- Replaces the `n`-th element of a list by `g` of it (identity out of
range); this models in-place mutation of an object stored in a list. -/
def listModify {α : Type} (g : α → α) : Nat → List α → List α
  | _, [] => []
  | 0, a :: l => g a :: l
  | n + 1, a :: l => a :: listModify g n l

/-- The class-promotion loop of `parse`: a typedef becomes a class iff the
function set holds a function named exactly its name plus `_Destroy`. -/
def promoteClasses (nsname : String) (fn_names : List String) (tds : List Typedef) : List Class :=
  tds.filterMap fun td =>
    if fn_names.contains (td.original_name ++ "_Destroy") then
      some { original_type := td.name, nspace := nsname, name := pyDrop 4 td.name, methods := [] }
    else none

/-- The index of the first class of a list whose original type name is a
prefix of the function name, if any. -/
def firstMatch (fname : String) : List Class → Option Nat
  | [] => none
  | c :: cs =>
    if pyStartswith fname c.original_type then some 0
    else (firstMatch fname cs).map (fun k => k + 1)

/-- The class-ownership search of `parse`: the first class, in construction
order across the namespaces built so far, whose original type name is a prefix
of the function's name.  Returns namespace index and class index. -/
def findClass : List Namespace → String → Option (Nat × Nat)
  | [], _ => none
  | ns :: rest, fname =>
    match firstMatch fname ns.classes with
    | some k => some (0, k)
    | none => (findClass rest fname).map (fun q => (q.1 + 1, q.2))

/-- `found_class.add_method(f, function_typedef_names)` of `parse`: append the
freshly built method to the class's method list. -/
def addMethodToClass (f : Function) (ftd_names : List String) (c : Class) : Class :=
  { c with methods := c.methods ++ [Method.ofFunction f c ftd_names] }

/-- Mutation of the class at position `jk` (namespace index, class index)
inside the namespace list. -/
def addMethodAt (f : Function) (ftd_names : List String) (jk : Nat × Nat) (nss : List Namespace) : List Namespace :=
  listModify (fun ns => { ns with classes := listModify (addMethodToClass f ftd_names) jk.2 ns.classes }) jk.1 nss

/-- `ns.add_function(f)` of `parse`, applied to the namespace currently being
populated (the last one in the list built so far). -/
def addGlobalToLast (f : Function) (nss : List Namespace) : List Namespace :=
  listModify (fun ns => { ns with functions := ns.functions ++ [GlobalFunction.ofFunction f] }) (nss.length - 1) nss

/-- One iteration of the function-assignment loop of `parse`: the function
becomes a method of the first matching class, or a global function of the
namespace currently being populated (the last one). -/
def assignFunction (ftd_names : List String) (nss : List Namespace) (f : Function) : List Namespace :=
  match findClass nss f.original_function with
  | some jk => addMethodAt f ftd_names jk nss
  | none => addGlobalToLast f nss

/-- The namespace as `parse` builds it before its function loop runs: the
prefix-matching closure-convention typedefs attached, the prefix-matching
typedefs promoted to classes, no functions yet. -/
def initialNs (fn_names : List String) (T : List Typedef) (FT : List FunctionTypedef)
    (spec : String × Option String) : Namespace :=
  { name := spec.1
    include_guard := spec.2
    classes := promoteClasses spec.1 fn_names (T.filter fun td => pyStartswith td.name spec.1)
    functions := []
    function_typedefs :=
      (FT.filter fun ftd => pyStartswith ftd.original_name spec.1).filter fun ftd => ftd.has_closure }

/-- The per-namespace body of `parse`: attach the closure-convention function
typedefs with the namespace's prefix, promote its typedefs to classes, then
assign its functions to classes (searching every class built so far) or keep
them as global functions. -/
def buildOne (fn_names ftd_names : List String) (F : List Function) (T : List Typedef)
    (FT : List FunctionTypedef) (done : List Namespace) (spec : String × Option String) :
    List Namespace :=
  (F.filter fun f => pyStartswith f.original_function spec.1).foldl
    (assignFunction ftd_names) (done ++ [initialNs fn_names T FT spec])

/-- The two namespaces `parse` constructs, in order, with their build
guards. -/
def nsSpecs : List (String × Option String) :=
  [("nats", none), ("stan", some ("defined(NATS_HAS_STREAMING)"))]

/-- The names of the closure-convention function typedefs, as passed to
`Method.__init__` (`function_typedef_names` in `parse`). -/
def ftdNames (fts : List FunctionTypedef) : List String :=
  (fts.filter fun ftd => ftd.has_closure).map fun ftd => ftd.original_name

/-- The recognized namespace prefixes of `parse`
(`cursor.spelling[:4] in ['nats', 'stan']`). -/
def recognizedPrefixes : List String := ["nats", "stan"]

/-- The result of the first loop of `parse`: the four collected declaration
lists. -/
structure CollectResult where
  functions : List Function
  enums : List Enum
  typedefs : List Typedef
  function_typedefs : List FunctionTypedef
  deriving DecidableEq, Repr

/-- One iteration of the first loop of `parse`: a declaration whose first four
characters match no recognized prefix is skipped; a function declaration is
normalized; a typedef with no children, or one type-reference child, stays a
plain typedef; one enum child makes an enum; everything else is walked as a
function-pointer typedef. -/
def collectStep (d : Decl) (r : CollectResult) : Option CollectResult :=
  if !(recognizedPrefixes.contains (pyTake 4 d.spelling)) then some r
  else
    match d with
    | .functionDecl sp rt args =>
      (Function.ofCursor sp rt args).map fun f => { r with functions := f :: r.functions }
    | .typedefDecl sp children =>
      match children with
      | [] => some { r with typedefs := Typedef.ofCursor sp :: r.typedefs }
      | [c] =>
        if c.kind == ChildKind.enumDecl then some { r with enums := Enum.ofCursor sp :: r.enums }
        else if c.kind == ChildKind.typeRef then
          some { r with typedefs := Typedef.ofCursor sp :: r.typedefs }
        else
          (FunctionTypedef.ofCursor sp children).map fun ftd =>
            { r with function_typedefs := ftd :: r.function_typedefs }
      | _ =>
        (FunctionTypedef.ofCursor sp children).map fun ftd =>
          { r with function_typedefs := ftd :: r.function_typedefs }
    | .otherDecl _ => some r

/-- The first loop of `parse`, in declaration order; any `IndexError` aborts
the whole pass. -/
def collectDecls : List Decl → Option CollectResult
  | [] => some { functions := [], enums := [], typedefs := [], function_typedefs := [] }
  | d :: ds =>
    match collectDecls ds with
    | none => none
    | some r => collectStep d r

/-- The second half of `parse`: build the two fixed namespaces and populate
them from the collected declarations (the collected enums are never used). -/
def buildModel (r : CollectResult) : List Namespace :=
  nsSpecs.foldl
    (buildOne (r.functions.map fun f => f.original_function) (ftdNames r.function_typedefs)
      r.functions r.typedefs r.function_typedefs)
    []

/-- The whole `parse` function of the generator. -/
def parseDecls (decls : List Decl) : Option (List Namespace) :=
  (collectDecls decls).map buildModel

/-! ### Derived observations and specification-side definitions -/

/-- Stripping one leading `const ` qualifier from a type spelling, exactly as
the specification phrases the receiver test; the code instead removes every
occurrence of `const ` (`pyReplace`), and the two agree on every type spelling
clang produces. -/
def stripLeadingConst (s : String) : String :=
  if pyStartswith s ("const ") then pyDrop 6 s else s

/-- A parameter is matched as a callback by `Method.__init__` iff it escapes
the receiver and temporary-output rules and its exact type spelling is among
the known closure-convention typedef names. -/
def isCallbackParam (this : Class) (fts : List String) (p : FunctionParameter) : Bool :=
  !receiverCond this p && !temporaryCond this p && fts.contains p.type

/-- The number of parameters of a list that `Method.__init__` matches as
callbacks. -/
def countCb (this : Class) (fts : List String) (ps : List FunctionParameter) : Nat :=
  (ps.filter fun p => isCallbackParam this fts p).length

/-- The elements of a list sitting at even positions (0, 2, 4, ...).  The
`template_parameter_` list of a method interleaves `typename Tn` entries with
the bound callback-value entries, so this selects exactly the template-type
parameters. -/
def evenIdx {α : Type} : List α → List α
  | [] => []
  | [a] => [a]
  | a :: _ :: l => a :: evenIdx l

/-- The pairs of template-parameter entries `Method.__init__` emits for the
callback-matched parameters of a list, starting the `T` numbering after `n`. -/
def tmplPairs (fnspace : String) (this : Class) (fts : List String) :
    Nat → List FunctionParameter → List String
  | _, [] => []
  | n, p :: ps =>
    if isCallbackParam this fts p then
      ("typename " ++ ("T" ++ toString (n + 1)))
        :: (templateBase fnspace p.type ++ "<" ++ ("T" ++ toString (n + 1)) ++ "> callback" ++ toString (n + 1))
        :: tmplPairs fnspace this fts (n + 1) ps
    else
      tmplPairs fnspace this fts n ps

/-- Specification-side reading of the callback adaptation rule (claim C4) for
the dispatched argument of one non-trailing parameter: a parameter in the
library's own namespace that is not the status-code type is wrapped — the
designated message type by move-construction from the raw handle, everything
else by a named non-owning wrapper — and all other parameters pass through
unchanged. -/
def specAdaptedArgument (ns : String) (p : FunctionParameter) : String :=
  if pyStartswith p.type ns && p.type != "natsStatus" then
    if p.plain_type == "natsMsg" then pyDrop 4 p.plain_type ++ "(" ++ p.name ++ ")"
    else p.name ++ "_"
  else p.argument

/-- Specification-side reading of the callback adaptation rule (claim C4) for
the adapted parameter of one non-trailing parameter: value-move for the
designated message type, reference to a wrapper for every other library type,
unchanged otherwise. -/
def specAdaptedParameter (ns : String) (p : FunctionParameter) : String :=
  if pyStartswith p.type ns && p.type != "natsStatus" then
    if p.plain_type == "natsMsg" then pyDrop 4 p.plain_type ++ " &&"
    else pyDrop 4 p.plain_type ++ " &"
  else p.parameter

/-- Specification-side reading of the recorded one-line wrapping rule (claim
C4): only wrapped parameters other than the designated message type get
one. -/
def specWrapRule (ns : String) (p : FunctionParameter) : Option String :=
  if pyStartswith p.type ns && p.type != "natsStatus" then
    if p.plain_type == "natsMsg" then none
    else some (pyDrop 4 p.plain_type ++ "::WithoutDestuction " ++ p.name ++ "_(" ++ p.name ++ ")")
  else none

/-- The names of the classes a namespace with prefix `pref` promotes, phrased
as the specification does (claim C2): the typedefs with that prefix whose name
plus `_Destroy` is among the function names, in order. -/
def promotedNames (pref : String) (fn_names : List String) (tds : List Typedef) : List String :=
  (tds.filter fun td => pyStartswith td.name pref && fn_names.contains (td.original_name ++ "_Destroy")).map
    (fun td => td.name)

/-- The projection of a namespace that the function-assignment loop of `parse`
leaves untouched: its name, guard, class names and callback typedefs. -/
def nsProj (ns : Namespace) : String × Option String × List String × List FunctionTypedef :=
  (ns.name, ns.include_guard, ns.classes.map (fun c => c.original_type), ns.function_typedefs)

/-- Every original declaration name recorded anywhere in one namespace of the
output model: global functions, classes, their methods, and callback
typedefs. -/
def Namespace.declNames (ns : Namespace) : List String :=
  ns.functions.map (fun g => g.function.original_function)
    ++ ns.classes.map (fun c => c.original_type)
    ++ (ns.classes.map (fun c => c.methods.map (fun m => m.function.original_function))).flatten
    ++ ns.function_typedefs.map (fun ftd => ftd.original_name)

/-- Every original declaration name recorded anywhere in the output model. -/
def modelNames (nss : List Namespace) : List String :=
  (nss.map Namespace.declNames).flatten

/-- The shape test under which the declaration normalizer walks a typedef's
children as a function-pointer typedef: not zero children, and not a single
enum-body or type-reference child. -/
def isFtdShape : List ChildCursor → Bool
  | [] => false
  | [c] => !(c.kind == ChildKind.enumDecl) && !(c.kind == ChildKind.typeRef)
  | _ => true

/-! ### Concrete inputs used by the witnesses and counterexamples -/

/-- A promoted class `natsConnection` in the `nats` namespace. -/
def connClass : Class :=
  { original_type := "natsConnection", nspace := "nats", name := "Connection", methods := [] }

/-- A promoted class `natsFoo` in the `nats` namespace. -/
def fooClass : Class :=
  { original_type := "natsFoo", nspace := "nats", name := "Foo", methods := [] }

/-- The parameter `const natsConnection *nc`. -/
def constConnParam : FunctionParameter :=
  { type := "const natsConnection *", element_count := 0, name := "nc" }

/-- The parameter `natsSubscription **sub`. -/
def subOutParam : FunctionParameter :=
  { type := "natsSubscription **", element_count := 0, name := "sub" }

/-- A normalized `natsConnection_IsClosed(const natsConnection *nc)`. -/
def isClosedFn : Function :=
  { original_function := "natsConnection_IsClosed", result_type := "bool", nspace := "nats"
    type := "Connection", name := "IsClosed", is_const := false, with_exception := false
    parameters := [constConnParam] }

/-- A normalized
`natsStatus natsConnection_Subscribe(natsSubscription **sub, natsConnection *nc, const char *subj)`. -/
def subscribeFn : Function :=
  { original_function := "natsConnection_Subscribe", result_type := "void", nspace := "nats"
    type := "Connection", name := "Subscribe", is_const := false, with_exception := true
    parameters :=
      [subOutParam,
       { type := "natsConnection *", element_count := 0, name := "nc" },
       { type := "const char *", element_count := 0, name := "subj" }] }

/-- A normalized
`natsStatus natsFoo_SetCallback(natsFoo *f, natsMsgHandler cb, void *closure)`. -/
def setCallbackFn : Function :=
  { original_function := "natsFoo_SetCallback", result_type := "void", nspace := "nats"
    type := "Foo", name := "SetCallback", is_const := false, with_exception := true
    parameters :=
      [{ type := "natsFoo *", element_count := 0, name := "f" },
       { type := "natsMsgHandler", element_count := 0, name := "cb" },
       { type := "void *", element_count := 0, name := "closure" }] }

/-- The argument cursors of `natsConnection_Subscribe`. -/
def subscribeArgs : List ParamCursor :=
  [{ type := { spelling := "natsSubscription **", arrayElement := none }, spelling := "sub" },
   { type := { spelling := "natsConnection *", arrayElement := none }, spelling := "nc" },
   { type := { spelling := "const char *", arrayElement := none }, spelling := "subj" }]

/-- The argument cursors of `natsFoo_SetCallback`. -/
def setCallbackArgs : List ParamCursor :=
  [{ type := { spelling := "natsFoo *", arrayElement := none }, spelling := "f" },
   { type := { spelling := "natsMsgHandler", arrayElement := none }, spelling := "cb" },
   { type := { spelling := "void *", arrayElement := none }, spelling := "closure" }]

/-- A normalized
`void natsConnection_SetHandler(natsConnection *nc, natsConnectionHandler cb, void *closure)`:
the callback-typed parameter's spelling begins with the class's own type
name. -/
def setHandlerFn : Function :=
  { original_function := "natsConnection_SetHandler", result_type := "void", nspace := "nats"
    type := "Connection", name := "SetHandler", is_const := false, with_exception := false
    parameters :=
      [{ type := "natsConnection *", element_count := 0, name := "nc" },
       { type := "natsConnectionHandler", element_count := 0, name := "cb" },
       { type := "void *", element_count := 0, name := "closure" }] }

/-- A normalized `natsStatus nats_Flush()`. -/
def flushFn : Function :=
  { original_function := "nats_Flush", result_type := "void", nspace := "nats"
    type := "", name := "Flush", is_const := false, with_exception := true, parameters := [] }

/-- A normalized `natsStatus nats_Open()` (as a record, for the expected
output model of a witness). -/
def openFn : Function :=
  { original_function := "nats_Open", result_type := "void", nspace := "nats"
    type := "", name := "Open", is_const := false, with_exception := true, parameters := [] }

/-- The child cursors of
`typedef void (*natsMsgHandler)(natsConnection *nc, natsMsg *msg, void *closure)`. -/
def msgHandlerChildren : List ChildCursor :=
  [{ kind := ChildKind.typeRef, type := { spelling := "void", arrayElement := none }, spelling := "void" },
   { kind := ChildKind.paramDecl, type := { spelling := "natsConnection *", arrayElement := none }, spelling := "nc" },
   { kind := ChildKind.paramDecl, type := { spelling := "natsMsg *", arrayElement := none }, spelling := "msg" },
   { kind := ChildKind.paramDecl, type := { spelling := "void *", arrayElement := none }, spelling := "closure" }]

/-- The callback descriptor the generator builds for `natsMsgHandler`. -/
def msgHandlerFtd : FunctionTypedef :=
  { original_name := "natsMsgHandler", nspace := "nats", name := "MsgHandler", result_type := "void"
    original_parameters :=
      [{ type := "natsConnection *", element_count := 0, name := "nc" },
       { type := "natsMsg *", element_count := 0, name := "msg" },
       { type := "void *", element_count := 0, name := "closure" }]
    wrapper := ["Connection::WithoutDestuction nc_(nc)"]
    arguments_ := ["nc_", "Msg(msg)"]
    parameters_ := ["Connection &", "Msg &&"]
    has_closure := true }

/-- The child cursors of a function-pointer typedef with a result type and no
recovered parameters at all. -/
def noParamChildren : List ChildCursor :=
  [{ kind := ChildKind.typeRef, type := { spelling := "void", arrayElement := none }, spelling := "void" }]

/-- An enum child cursor. -/
def enumChild : ChildCursor :=
  { kind := ChildKind.enumDecl, type := { spelling := "", arrayElement := none }, spelling := "" }

/-- The empty `nats` namespace. -/
def natsEmptyNs : Namespace :=
  { name := "nats", classes := [], functions := [], function_typedefs := [], include_guard := none }

/-- The empty `stan` namespace, with its build guard. -/
def stanEmptyNs : Namespace :=
  { name := "stan", classes := [], functions := [], function_typedefs := []
    include_guard := some ("defined(NATS_HAS_STREAMING)") }

/-- The model produced from inputs contributing nothing. -/
def emptyModel : List Namespace := [natsEmptyNs, stanEmptyNs]

/-- The model produced from the single declaration `natsStatus nats_Open()`. -/
def openModel : List Namespace :=
  [{ name := "nats", classes := []
     functions := [{ function := openFn, arguments_ := [], parameters_ := [] }]
     function_typedefs := [], include_guard := none },
   stanEmptyNs]

/-- The declarations of a small promotion scenario: typedefs `natsBaz` and
`natsBar`, and a destructor for `natsBaz` only. -/
def promoDecls : List Decl :=
  [Decl.typedefDecl ("natsBaz") [],
   Decl.typedefDecl ("natsBar") [],
   Decl.functionDecl ("natsBaz_Destroy") ("void") []]

/-- A well-formed declaration list for the totality witness: a prefixed
function with an underscore in its name, a non-prefixed function whose name
holds no underscore at all (skipped by the prefix test before normalization,
so it cannot crash the pass), and a plain typedef. -/
def c9wDecls : List Decl :=
  [Decl.functionDecl ("nats_Open") ("natsStatus") [],
   Decl.functionDecl ("puts") ("int") [],
   Decl.typedefDecl ("natsBar") []]

/-- The collected declaration lists of the promotion scenario. -/
def promoCollect : CollectResult :=
  { functions :=
      [{ original_function := "natsBaz_Destroy", result_type := "void", nspace := "nats"
         type := "Baz", name := "Destroy", is_const := false, with_exception := false
         parameters := [] }]
    enums := []
    typedefs := [Typedef.ofCursor ("natsBaz"), Typedef.ofCursor ("natsBar")]
    function_typedefs := [] }

/-! ### General lemmas about the list helpers -/

theorem listModify_map {α β : Type} (f : α → β) (g : α → α) (h : ∀ a, f (g a) = f a) :
    ∀ (n : Nat) (l : List α), (listModify g n l).map f = l.map f := by
  intro n l
  induction l generalizing n with
  | nil => simp [listModify]
  | cons a l ih =>
    cases n with
    | zero => simp [listModify, h]
    | succ n => simp [listModify, ih]

theorem listModify_decomp {α : Type} (g : α → α) :
    ∀ (n : Nat) (l : List α), listModify g n l = l ∨
      ∃ l1 a l2, l = l1 ++ a :: l2 ∧ l1.length = n ∧ listModify g n l = l1 ++ g a :: l2 := by
  intro n l
  induction l generalizing n with
  | nil => left; simp [listModify]
  | cons a l ih =>
    cases n with
    | zero => exact Or.inr ⟨[], a, l, by simp, by simp, by simp [listModify]⟩
    | succ n =>
      rcases ih n with h | ⟨l1, b, l2, h1, h2, h3⟩
      · left; simp [listModify, h]
      · exact Or.inr ⟨a :: l1, b, l2, by simp [h1], by simp [h2], by simp [listModify, h3]⟩

theorem listModify_lt {α : Type} (g : α → α) :
    ∀ (n : Nat) (l : List α), n < l.length →
      ∃ l1 a l2, l = l1 ++ a :: l2 ∧ l1.length = n ∧ listModify g n l = l1 ++ g a :: l2 := by
  intro n l
  induction l generalizing n with
  | nil => intro h; simp at h
  | cons a l ih =>
    intro h
    cases n with
    | zero => exact ⟨[], a, l, by simp, by simp, by simp [listModify]⟩
    | succ n =>
      rcases ih n (by simpa using h) with ⟨l1, b, l2, h1, h2, h3⟩
      exact ⟨a :: l1, b, l2, by simp [h1], by simp [h2], by simp [listModify, h3]⟩

theorem firstMatch_lt (fname : String) :
    ∀ (cs : List Class) (k : Nat), firstMatch fname cs = some k → k < cs.length := by
  intro cs
  induction cs with
  | nil => intro k h; simp [firstMatch] at h
  | cons c cs ih =>
    intro k h
    by_cases hc : pyStartswith fname c.original_type
    · simp [firstMatch, hc] at h
      simp only [List.length_cons]
      omega
    · simp [firstMatch, hc] at h
      rcases h with ⟨k2, hk2, rfl⟩
      have hlt := ih k2 hk2
      simp only [List.length_cons]
      omega

theorem findClass_lt :
    ∀ (nss : List Namespace) (s : String) (jk : Nat × Nat), findClass nss s = some jk →
      ∃ l1 ns l2, nss = l1 ++ ns :: l2 ∧ l1.length = jk.1 ∧ jk.2 < ns.classes.length := by
  intro nss
  induction nss with
  | nil => intro s jk h; simp [findClass] at h
  | cons ns rest ih =>
    intro s jk h
    unfold findClass at h
    cases hfm : firstMatch s ns.classes with
    | some k =>
      rw [hfm] at h
      simp at h
      exact ⟨[], ns, rest, by simp, by simp [← h], by simp [← h]; exact firstMatch_lt s ns.classes k hfm⟩
    | none =>
      rw [hfm] at h
      simp at h
      rcases h with ⟨j2, k2, hjk, rfl⟩
      rcases ih s (j2, k2) hjk with ⟨l1, ns2, l2, h1, h2, h3⟩
      exact ⟨ns :: l1, ns2, l2, by simp [h1], by simp [h2], h3⟩

/-! ### The callback adaptation loop computes the specified per-parameter rules -/

theorem adaptLoop_eq (ns : String) :
    ∀ ps : List FunctionParameter,
      adaptLoop ns ps =
        (ps.map (specAdaptedArgument ns), ps.map (specAdaptedParameter ns), ps.filterMap (specWrapRule ns)) := by
  intro ps
  induction ps with
  | nil => simp [adaptLoop]
  | cons p ps ih =>
    cases h1 : pyStartswith p.type ns && p.type != "natsStatus" with
    | false =>
      simp [adaptLoop, specAdaptedArgument, specAdaptedParameter, specWrapRule, h1, ih]
    | true =>
      cases h2 : p.plain_type == "natsMsg" with
      | false =>
        simp [adaptLoop, specAdaptedArgument, specAdaptedParameter, specWrapRule, h1, h2, ih]
      | true =>
        simp [adaptLoop, specAdaptedArgument, specAdaptedParameter, specWrapRule, h1, h2, ih]

/-! ### The parameter loop of the method classifier: template bookkeeping -/

theorem methodStep_function (cls : Class) (fts : List String) (m : Method) (p : FunctionParameter) :
    (methodStep cls fts m p).function = m.function := by
  unfold methodStep
  split
  · split <;> rfl
  · split
    · rfl
    · split
      · rfl
      · split <;> rfl

theorem methodStep_template (cls : Class) (fts : List String) (m : Method) (p : FunctionParameter) :
    (isCallbackParam cls fts p = true →
      (methodStep cls fts m p).type_number = m.type_number + 1 ∧
      (methodStep cls fts m p).template_parameter_ =
        m.template_parameter_ ++
          ["typename " ++ ("T" ++ toString (m.type_number + 1)),
           templateBase m.function.nspace p.type ++ "<" ++ ("T" ++ toString (m.type_number + 1))
             ++ "> callback" ++ toString (m.type_number + 1)]) ∧
    (isCallbackParam cls fts p = false →
      (methodStep cls fts m p).type_number = m.type_number ∧
      (methodStep cls fts m p).template_parameter_ = m.template_parameter_) := by
  cases hr : receiverCond cls p with
  | true =>
    have hcb : isCallbackParam cls fts p = false := by simp [isCallbackParam, hr]
    constructor
    · intro h; rw [hcb] at h; cases h
    · intro _
      unfold methodStep
      rw [hr]
      simp only [if_true]
      split <;> simp
  | false =>
    cases ht : temporaryCond cls p with
    | true =>
      have hcb : isCallbackParam cls fts p = false := by simp [isCallbackParam, hr, ht]
      constructor
      · intro h; rw [hcb] at h; cases h
      · intro _
        unfold methodStep
        rw [hr, ht]
        simp
    | false =>
      cases hin : fts.contains p.type with
      | true =>
        have hmem : p.type ∈ fts := by simpa using hin
        have hcb : isCallbackParam cls fts p = true := by
          simp [isCallbackParam, hr, ht, hmem]
        constructor
        · intro _
          unfold methodStep
          rw [hr, ht, hin]
          simp
        · intro h; rw [hcb] at h; cases h
      | false =>
        have hmem : p.type ∉ fts := by simpa using hin
        have hcb : isCallbackParam cls fts p = false := by
          simp [isCallbackParam, hr, ht, hmem]
        constructor
        · intro h; rw [hcb] at h; cases h
        · intro _
          unfold methodStep
          rw [hr, ht, hin]
          simp only [Bool.false_eq_true, if_false]
          split <;> simp

theorem method_fold_template (cls : Class) (fts : List String) :
    ∀ (ps : List FunctionParameter) (m : Method),
      (ps.foldl (methodStep cls fts) m).function = m.function ∧
      (ps.foldl (methodStep cls fts) m).type_number = m.type_number + countCb cls fts ps ∧
      (ps.foldl (methodStep cls fts) m).template_parameter_ =
        m.template_parameter_ ++ tmplPairs m.function.nspace cls fts m.type_number ps := by
  intro ps
  induction ps with
  | nil => intro m; simp [countCb, tmplPairs]
  | cons p ps ih =>
    intro m
    have hfn := methodStep_function cls fts m p
    have htp := methodStep_template cls fts m p
    cases hcb : isCallbackParam cls fts p with
    | true =>
      have hstep := htp.1 hcb
      rcases ih (methodStep cls fts m p) with ⟨ihf, ihn, iht⟩
      refine ⟨by simp [ihf, hfn], ?_, ?_⟩
      · rw [List.foldl_cons] at *
        rw [ihn, hstep.1]
        simp [countCb, List.filter_cons, hcb]
        omega
      · rw [List.foldl_cons] at *
        rw [iht, hstep.2, hstep.1, hfn]
        have hpp : tmplPairs m.function.nspace cls fts m.type_number (p :: ps) =
            ("typename " ++ ("T" ++ toString (m.type_number + 1)))
              :: (templateBase m.function.nspace p.type ++ "<" ++ ("T" ++ toString (m.type_number + 1))
                  ++ "> callback" ++ toString (m.type_number + 1))
              :: tmplPairs m.function.nspace cls fts (m.type_number + 1) ps := by
          simp [tmplPairs, hcb]
        rw [hpp]
        simp
    | false =>
      have hstep := htp.2 hcb
      rcases ih (methodStep cls fts m p) with ⟨ihf, ihn, iht⟩
      refine ⟨by simp [ihf, hfn], ?_, ?_⟩
      · rw [List.foldl_cons] at *
        rw [ihn, hstep.1]
        simp [countCb, List.filter_cons, hcb]
      · rw [List.foldl_cons] at *
        rw [iht, hstep.2, hstep.1, hfn]
        have hpp : tmplPairs m.function.nspace cls fts m.type_number (p :: ps) =
            tmplPairs m.function.nspace cls fts m.type_number ps := by
          simp [tmplPairs, hcb]
        rw [hpp]

theorem evenIdx_cons2 {α : Type} (a b : α) (l : List α) : evenIdx (a :: b :: l) = a :: evenIdx l := rfl

theorem tmplPairs_even (fns : String) (cls : Class) (fts : List String) :
    ∀ (ps : List FunctionParameter) (n : Nat),
      evenIdx (tmplPairs fns cls fts n ps) =
        (List.range (countCb cls fts ps)).map (fun i => "typename " ++ ("T" ++ toString (n + i + 1))) ∧
      (tmplPairs fns cls fts n ps).length = 2 * countCb cls fts ps := by
  intro ps
  induction ps with
  | nil => intro n; simp [tmplPairs, countCb, evenIdx]
  | cons p ps ih =>
    intro n
    cases hcb : isCallbackParam cls fts p with
    | false =>
      have hk : countCb cls fts (p :: ps) = countCb cls fts ps := by
        simp [countCb, List.filter_cons, hcb]
      rw [hk]
      have hpp : tmplPairs fns cls fts n (p :: ps) = tmplPairs fns cls fts n ps := by
        simp [tmplPairs, hcb]
      rw [hpp]
      exact ih n
    | true =>
      have hk : countCb cls fts (p :: ps) = countCb cls fts ps + 1 := by
        simp [countCb, List.filter_cons, hcb]
      rw [hk]
      have hpp : tmplPairs fns cls fts n (p :: ps) =
          ("typename " ++ ("T" ++ toString (n + 1)))
            :: (templateBase fns p.type ++ "<" ++ ("T" ++ toString (n + 1)) ++ "> callback" ++ toString (n + 1))
            :: tmplPairs fns cls fts (n + 1) ps := by
        simp [tmplPairs, hcb]
      rw [hpp, evenIdx_cons2]
      rcases ih (n + 1) with ⟨ih1, ih2⟩
      constructor
      · rw [ih1, List.range_succ_eq_map]
        rw [List.map_cons, List.map_map]
        have h0 : n + 0 + 1 = n + 1 := by omega
        rw [h0]
        congr 1
        apply List.map_congr_left
        intro i _
        simp only [Function.comp_apply, Nat.succ_eq_add_one]
        have he : n + (i + 1) + 1 = n + 1 + i + 1 := by omega
        rw [he]
      · simp only [List.length_cons, ih2]
        omega

/-! ### The function-assignment loop never changes namespace names, guards,
class names or callback typedef lists -/

theorem nsProj_addMethod (f : Function) (ftn : List String) (k : Nat) (ns : Namespace) :
    nsProj { ns with classes := listModify (addMethodToClass f ftn) k ns.classes } = nsProj ns := by
  have h : (listModify (addMethodToClass f ftn) k ns.classes).map (fun c => c.original_type) =
      ns.classes.map (fun c => c.original_type) :=
    listModify_map (fun c => c.original_type) (addMethodToClass f ftn)
      (fun c => (rfl : (addMethodToClass f ftn c).original_type = c.original_type)) k ns.classes
  unfold nsProj
  simp only
  rw [h]

theorem assignFunction_proj (ftn : List String) (nss : List Namespace) (f : Function) :
    (assignFunction ftn nss f).map nsProj = nss.map nsProj := by
  unfold assignFunction
  cases hfc : findClass nss f.original_function with
  | none =>
    unfold addGlobalToLast
    exact listModify_map nsProj _ (fun ns => by simp [nsProj]) _ _
  | some jk =>
    unfold addMethodAt
    exact listModify_map nsProj _ (fun ns => nsProj_addMethod f ftn jk.2 ns) _ _

theorem foldl_assign_proj (ftn : List String) :
    ∀ (fs : List Function) (nss : List Namespace),
      (fs.foldl (assignFunction ftn) nss).map nsProj = nss.map nsProj := by
  intro fs
  induction fs with
  | nil => intro nss; rfl
  | cons f fs ih =>
    intro nss
    rw [List.foldl_cons, ih, assignFunction_proj]

theorem promoteClasses_map (pref : String) (fn : List String) :
    ∀ tds : List Typedef,
      (promoteClasses pref fn (tds.filter fun td => pyStartswith td.name pref)).map
          (fun c => c.original_type) =
        promotedNames pref fn tds := by
  intro tds
  induction tds with
  | nil => rfl
  | cons td tds ih =>
    cases hs : pyStartswith td.name pref with
    | false =>
      have h1 : (td :: tds).filter (fun td => pyStartswith td.name pref) =
          tds.filter (fun td => pyStartswith td.name pref) := by
        simp [List.filter_cons, hs]
      have h2 : promotedNames pref fn (td :: tds) = promotedNames pref fn tds := by
        simp [promotedNames, List.filter_cons, hs]
      rw [h1, h2]
      exact ih
    | true =>
      have h1 : (td :: tds).filter (fun td => pyStartswith td.name pref) =
          td :: tds.filter (fun td => pyStartswith td.name pref) := by
        simp [List.filter_cons, hs]
      rw [h1]
      cases hd : fn.contains (td.original_name ++ "_Destroy") with
      | true =>
        have hmem : td.original_name ++ "_Destroy" ∈ fn := by simpa using hd
        have h2 : promotedNames pref fn (td :: tds) = td.name :: promotedNames pref fn tds := by
          unfold promotedNames
          simp [List.filter_cons, hs, hd, hmem]
        rw [h2]
        have h3 : promoteClasses pref fn (td :: tds.filter (fun td => pyStartswith td.name pref)) =
            { original_type := td.name, nspace := pref, name := pyDrop 4 td.name, methods := [] }
              :: promoteClasses pref fn (tds.filter (fun td => pyStartswith td.name pref)) := by
          unfold promoteClasses
          simp [List.filterMap_cons, hd, hmem]
        rw [h3, List.map_cons, ih]
      | false =>
        have hmem : td.original_name ++ "_Destroy" ∉ fn := by simpa using hd
        have h2 : promotedNames pref fn (td :: tds) = promotedNames pref fn tds := by
          unfold promotedNames
          simp [List.filter_cons, hs, hd, hmem]
        rw [h2]
        have h3 : promoteClasses pref fn (td :: tds.filter (fun td => pyStartswith td.name pref)) =
            promoteClasses pref fn (tds.filter (fun td => pyStartswith td.name pref)) := by
          unfold promoteClasses
          simp [List.filterMap_cons, hd, hmem]
        rw [h3, ih]

theorem buildOne_proj (fn ftn : List String) (F : List Function) (T : List Typedef)
    (FT : List FunctionTypedef) (done : List Namespace) (spec : String × Option String) :
    (buildOne fn ftn F T FT done spec).map nsProj =
      done.map nsProj ++
        [(spec.1, spec.2, promotedNames spec.1 fn T,
          (FT.filter fun ftd => pyStartswith ftd.original_name spec.1).filter fun ftd => ftd.has_closure)] := by
  unfold buildOne
  rw [foldl_assign_proj]
  rw [List.map_append]
  simp only [List.map_cons, List.map_nil]
  unfold initialNs nsProj
  simp only
  rw [promoteClasses_map]

theorem buildModel_proj (r : CollectResult) :
    (buildModel r).map nsProj =
      [("nats", none, promotedNames ("nats") (r.functions.map fun f => f.original_function) r.typedefs,
        (r.function_typedefs.filter fun ftd => pyStartswith ftd.original_name ("nats")).filter
          fun ftd => ftd.has_closure),
       ("stan", some ("defined(NATS_HAS_STREAMING)"),
        promotedNames ("stan") (r.functions.map fun f => f.original_function) r.typedefs,
        (r.function_typedefs.filter fun ftd => pyStartswith ftd.original_name ("stan")).filter
          fun ftd => ftd.has_closure)] := by
  unfold buildModel nsSpecs
  rw [List.foldl_cons, List.foldl_cons, List.foldl_nil]
  rw [buildOne_proj, buildOne_proj]
  simp

/-! ### Which declaration names can reach the output model -/

theorem modelNames_cons (ns : Namespace) (nss : List Namespace) :
    modelNames (ns :: nss) = Namespace.declNames ns ++ modelNames nss := by
  unfold modelNames
  rw [List.map_cons, List.flatten_cons]

theorem modelNames_append (l1 l2 : List Namespace) :
    modelNames (l1 ++ l2) = modelNames l1 ++ modelNames l2 := by
  unfold modelNames
  rw [List.map_append, List.flatten_append]

theorem modelNames_middle (l1 : List Namespace) (a : Namespace) (l2 : List Namespace) :
    modelNames (l1 ++ a :: l2) = modelNames l1 ++ (Namespace.declNames a ++ modelNames l2) := by
  rw [modelNames_append, modelNames_cons]

theorem listModify_append {α : Type} (g : α → α) :
    ∀ (l1 : List α) (a : α) (l2 : List α), listModify g l1.length (l1 ++ a :: l2) = l1 ++ g a :: l2 := by
  intro l1
  induction l1 with
  | nil => intro a l2; simp [listModify]
  | cons b l1 ih => intro a l2; simp [listModify, ih]

theorem Method.ofFunction_function (f : Function) (cls : Class) (ftn : List String) :
    (Method.ofFunction f cls ftn).function = f :=
  (method_fold_template cls ftn f.parameters (Method.init f)).1

theorem mem_methods_listModify (f : Function) (ftn : List String) :
    ∀ (k : Nat) (cls : List Class) (x : String),
      x ∈ ((listModify (addMethodToClass f ftn) k cls).map
            (fun c => c.methods.map (fun m => m.function.original_function))).flatten →
        x ∈ (cls.map (fun c => c.methods.map (fun m => m.function.original_function))).flatten ∨
          x = f.original_function := by
  intro k cls
  induction cls generalizing k with
  | nil => intro x h; simp [listModify] at h
  | cons c cls ih =>
    intro x h
    cases k with
    | zero =>
      simp only [listModify, List.map_cons, List.flatten_cons] at h ⊢
      rcases List.mem_append.mp h with h1 | h2
      · unfold addMethodToClass at h1
        simp only [List.map_append] at h1
        rcases List.mem_append.mp h1 with h3 | h4
        · exact Or.inl (List.mem_append.mpr (Or.inl h3))
        · simp only [List.map_cons, List.map_nil, List.mem_singleton,
            Method.ofFunction_function] at h4
          exact Or.inr h4
      · exact Or.inl (List.mem_append.mpr (Or.inr h2))
    | succ k =>
      simp only [listModify, List.map_cons, List.flatten_cons] at h ⊢
      rcases List.mem_append.mp h with h1 | h2
      · exact Or.inl (List.mem_append.mpr (Or.inl h1))
      · rcases ih k x h2 with h3 | h4
        · exact Or.inl (List.mem_append.mpr (Or.inr h3))
        · exact Or.inr h4

theorem mem_methods_listModify_mono (f : Function) (ftn : List String) :
    ∀ (k : Nat) (cls : List Class) (x : String),
      x ∈ (cls.map (fun c => c.methods.map (fun m => m.function.original_function))).flatten →
        x ∈ ((listModify (addMethodToClass f ftn) k cls).map
              (fun c => c.methods.map (fun m => m.function.original_function))).flatten := by
  intro k cls
  induction cls generalizing k with
  | nil => intro x h; simp at h
  | cons c cls ih =>
    intro x h
    cases k with
    | zero =>
      simp only [listModify, List.map_cons, List.flatten_cons] at h ⊢
      rcases List.mem_append.mp h with h1 | h2
      · refine List.mem_append.mpr (Or.inl ?_)
        unfold addMethodToClass
        simp only [List.map_append]
        exact List.mem_append.mpr (Or.inl h1)
      · exact List.mem_append.mpr (Or.inr h2)
    | succ k =>
      simp only [listModify, List.map_cons, List.flatten_cons] at h ⊢
      rcases List.mem_append.mp h with h1 | h2
      · exact List.mem_append.mpr (Or.inl h1)
      · exact List.mem_append.mpr (Or.inr (ih k x h2))

theorem mem_methods_listModify_adds (f : Function) (ftn : List String) :
    ∀ (k : Nat) (cls : List Class), k < cls.length →
      f.original_function ∈
        ((listModify (addMethodToClass f ftn) k cls).map
          (fun c => c.methods.map (fun m => m.function.original_function))).flatten := by
  intro k cls
  induction cls generalizing k with
  | nil => intro h; simp at h
  | cons c cls ih =>
    intro h
    cases k with
    | zero =>
      simp only [listModify, List.map_cons, List.flatten_cons]
      refine List.mem_append.mpr (Or.inl ?_)
      unfold addMethodToClass
      simp only [List.map_append, List.map_cons, List.map_nil, Method.ofFunction_function]
      exact List.mem_append.mpr (Or.inr (by simp))
    | succ k =>
      simp only [listModify, List.map_cons, List.flatten_cons]
      refine List.mem_append.mpr (Or.inr ?_)
      exact ih k (by simpa using h)

theorem declNames_addGlobal_iff (f : Function) (ns : Namespace) (x : String) :
    x ∈ Namespace.declNames { ns with functions := ns.functions ++ [GlobalFunction.ofFunction f] } ↔
      x ∈ Namespace.declNames ns ∨ x = f.original_function := by
  unfold Namespace.declNames GlobalFunction.ofFunction
  simp only [List.map_append, List.map_cons, List.map_nil, List.mem_append, List.mem_singleton]
  tauto

theorem declNames_addMethodNs_sub (f : Function) (ftn : List String) (k : Nat) (ns : Namespace)
    (x : String)
    (h : x ∈ Namespace.declNames { ns with classes := listModify (addMethodToClass f ftn) k ns.classes }) :
    x ∈ Namespace.declNames ns ∨ x = f.original_function := by
  have horig : (listModify (addMethodToClass f ftn) k ns.classes).map (fun c => c.original_type) =
      ns.classes.map (fun c => c.original_type) :=
    listModify_map (fun c => c.original_type) (addMethodToClass f ftn)
      (fun c => (rfl : (addMethodToClass f ftn c).original_type = c.original_type)) k ns.classes
  unfold Namespace.declNames at h ⊢
  simp only [List.mem_append] at h ⊢
  rcases h with (((h1 | h2) | h3) | h4)
  · exact Or.inl (Or.inl (Or.inl (Or.inl h1)))
  · rw [horig] at h2
    exact Or.inl (Or.inl (Or.inl (Or.inr h2)))
  · rcases mem_methods_listModify f ftn k ns.classes x h3 with h5 | h6
    · exact Or.inl (Or.inl (Or.inr h5))
    · exact Or.inr h6
  · exact Or.inl (Or.inr h4)

theorem declNames_addMethodNs_mono (f : Function) (ftn : List String) (k : Nat) (ns : Namespace)
    (x : String) (h : x ∈ Namespace.declNames ns) :
    x ∈ Namespace.declNames { ns with classes := listModify (addMethodToClass f ftn) k ns.classes } := by
  have horig : (listModify (addMethodToClass f ftn) k ns.classes).map (fun c => c.original_type) =
      ns.classes.map (fun c => c.original_type) :=
    listModify_map (fun c => c.original_type) (addMethodToClass f ftn)
      (fun c => (rfl : (addMethodToClass f ftn c).original_type = c.original_type)) k ns.classes
  unfold Namespace.declNames at h ⊢
  simp only [List.mem_append] at h ⊢
  rcases h with (((h1 | h2) | h3) | h4)
  · exact Or.inl (Or.inl (Or.inl h1))
  · rw [horig]
    exact Or.inl (Or.inl (Or.inr h2))
  · exact Or.inl (Or.inr (mem_methods_listModify_mono f ftn k ns.classes x h3))
  · exact Or.inr h4

theorem assignFunction_eq_none (ftn : List String) (nss : List Namespace) (f : Function)
    (h : findClass nss f.original_function = none) :
    assignFunction ftn nss f = addGlobalToLast f nss := by
  unfold assignFunction
  rw [h]

theorem assignFunction_eq_some (ftn : List String) (nss : List Namespace) (f : Function)
    (jk : Nat × Nat) (h : findClass nss f.original_function = some jk) :
    assignFunction ftn nss f = addMethodAt f ftn jk nss := by
  unfold assignFunction
  rw [h]

theorem assignFunction_names_sub (ftn : List String) (nss : List Namespace) (f : Function)
    (x : String) (h : x ∈ modelNames (assignFunction ftn nss f)) :
    x ∈ modelNames nss ∨ x = f.original_function := by
  rcases hfc : findClass nss f.original_function with _ | jk
  · rw [assignFunction_eq_none ftn nss f hfc] at h
    unfold addGlobalToLast at h
    rcases listModify_decomp
        (fun ns => { ns with functions := ns.functions ++ [GlobalFunction.ofFunction f] })
        (nss.length - 1) nss with heq | ⟨l1, a, l2, h1, h2, h3⟩
    · rw [heq] at h
      exact Or.inl h
    · rw [h3, modelNames_middle] at h
      rw [h1, modelNames_middle]
      simp only [List.mem_append] at h ⊢
      rcases h with hA | hB | hC
      · exact Or.inl (Or.inl hA)
      · rcases (declNames_addGlobal_iff f a x).mp hB with hB1 | hB2
        · exact Or.inl (Or.inr (Or.inl hB1))
        · exact Or.inr hB2
      · exact Or.inl (Or.inr (Or.inr hC))
  · rw [assignFunction_eq_some ftn nss f jk hfc] at h
    unfold addMethodAt at h
    rcases listModify_decomp
        (fun ns =>
          { ns with classes := listModify (addMethodToClass f ftn) jk.2 ns.classes })
        jk.1 nss with heq | ⟨l1, a, l2, h1, h2, h3⟩
    · rw [heq] at h
      exact Or.inl h
    · rw [h3, modelNames_middle] at h
      rw [h1, modelNames_middle]
      simp only [List.mem_append] at h ⊢
      rcases h with hA | hB | hC
      · exact Or.inl (Or.inl hA)
      · rcases declNames_addMethodNs_sub f ftn jk.2 a x hB with hB1 | hB2
        · exact Or.inl (Or.inr (Or.inl hB1))
        · exact Or.inr hB2
      · exact Or.inl (Or.inr (Or.inr hC))

theorem assignFunction_names_mono (ftn : List String) (nss : List Namespace) (f : Function)
    (x : String) (h : x ∈ modelNames nss) :
    x ∈ modelNames (assignFunction ftn nss f) := by
  rcases hfc : findClass nss f.original_function with _ | jk
  · rw [assignFunction_eq_none ftn nss f hfc]
    unfold addGlobalToLast
    rcases listModify_decomp
        (fun ns => { ns with functions := ns.functions ++ [GlobalFunction.ofFunction f] })
        (nss.length - 1) nss with heq | ⟨l1, a, l2, h1, h2, h3⟩
    · rw [heq]
      exact h
    · rw [h3, modelNames_middle]
      rw [h1, modelNames_middle] at h
      simp only [List.mem_append] at h ⊢
      rcases h with hA | hB | hC
      · exact Or.inl hA
      · exact Or.inr (Or.inl ((declNames_addGlobal_iff f a x).mpr (Or.inl hB)))
      · exact Or.inr (Or.inr hC)
  · rw [assignFunction_eq_some ftn nss f jk hfc]
    unfold addMethodAt
    rcases listModify_decomp
        (fun ns =>
          { ns with classes := listModify (addMethodToClass f ftn) jk.2 ns.classes })
        jk.1 nss with heq | ⟨l1, a, l2, h1, h2, h3⟩
    · rw [heq]
      exact h
    · rw [h3, modelNames_middle]
      rw [h1, modelNames_middle] at h
      simp only [List.mem_append] at h ⊢
      rcases h with hA | hB | hC
      · exact Or.inl hA
      · exact Or.inr (Or.inl (declNames_addMethodNs_mono f ftn jk.2 a x hB))
      · exact Or.inr (Or.inr hC)

theorem assignFunction_adds (ftn : List String) (nss : List Namespace) (f : Function)
    (hne : nss ≠ []) :
    f.original_function ∈ modelNames (assignFunction ftn nss f) := by
  rcases hfc : findClass nss f.original_function with _ | jk
  · rw [assignFunction_eq_none ftn nss f hfc]
    unfold addGlobalToLast
    have hlen : nss.length - 1 < nss.length := by
      cases nss with
      | nil => exact absurd rfl hne
      | cons a l => simp
    rcases listModify_lt
        (fun ns => { ns with functions := ns.functions ++ [GlobalFunction.ofFunction f] })
        (nss.length - 1) nss hlen with ⟨l1, a, l2, h1, h2, h3⟩
    rw [h3, modelNames_middle]
    refine List.mem_append.mpr (Or.inr (List.mem_append.mpr (Or.inl ?_)))
    exact (declNames_addGlobal_iff f a f.original_function).mpr (Or.inr rfl)
  · rw [assignFunction_eq_some ftn nss f jk hfc]
    rcases findClass_lt nss f.original_function jk hfc with ⟨l1, ns, l2, h1, h2, h3⟩
    unfold addMethodAt
    rw [h1, ← h2, listModify_append]
    rw [modelNames_middle]
    refine List.mem_append.mpr (Or.inr (List.mem_append.mpr (Or.inl ?_)))
    unfold Namespace.declNames
    simp only [List.mem_append]
    exact Or.inl (Or.inr (mem_methods_listModify_adds f ftn jk.2 ns.classes h3))

theorem assignFunction_length (ftn : List String) (nss : List Namespace) (f : Function) :
    (assignFunction ftn nss f).length = nss.length := by
  have h := congrArg List.length (assignFunction_proj ftn nss f)
  simpa using h

theorem foldl_assign_names_sub (ftn : List String) :
    ∀ (fs : List Function) (nss : List Namespace) (x : String),
      x ∈ modelNames (fs.foldl (assignFunction ftn) nss) →
        x ∈ modelNames nss ∨ ∃ f, f ∈ fs ∧ x = f.original_function := by
  intro fs
  induction fs with
  | nil => intro nss x h; exact Or.inl h
  | cons f fs ih =>
    intro nss x h
    rw [List.foldl_cons] at h
    rcases ih (assignFunction ftn nss f) x h with h1 | ⟨f2, hf2, hx⟩
    · rcases assignFunction_names_sub ftn nss f x h1 with h2 | h3
      · exact Or.inl h2
      · exact Or.inr ⟨f, by simp, h3⟩
    · exact Or.inr ⟨f2, by simp [hf2], hx⟩

theorem foldl_assign_names_mono (ftn : List String) :
    ∀ (fs : List Function) (nss : List Namespace) (x : String),
      x ∈ modelNames nss → x ∈ modelNames (fs.foldl (assignFunction ftn) nss) := by
  intro fs
  induction fs with
  | nil => intro nss x h; exact h
  | cons f fs ih =>
    intro nss x h
    rw [List.foldl_cons]
    exact ih (assignFunction ftn nss f) x (assignFunction_names_mono ftn nss f x h)

theorem foldl_assign_mem (ftn : List String) :
    ∀ (fs : List Function) (nss : List Namespace) (f : Function),
      f ∈ fs → nss ≠ [] → f.original_function ∈ modelNames (fs.foldl (assignFunction ftn) nss) := by
  intro fs
  induction fs with
  | nil => intro nss f h; simp at h
  | cons g fs ih =>
    intro nss f h hne
    rw [List.foldl_cons]
    rcases List.mem_cons.mp h with rfl | h2
    · exact foldl_assign_names_mono ftn fs (assignFunction ftn nss f) f.original_function
        (assignFunction_adds ftn nss f hne)
    · have hne2 : assignFunction ftn nss g ≠ [] := by
        intro hc
        have := assignFunction_length ftn nss g
        rw [hc] at this
        cases nss with
        | nil => exact hne rfl
        | cons a l => simp at this
      exact ih (assignFunction ftn nss g) f h2 hne2

theorem mem_promoteClasses_types (pref : String) (fn : List String) (tds : List Typedef) (x : String)
    (h : x ∈ (promoteClasses pref fn tds).map (fun c => c.original_type)) :
    ∃ td, td ∈ tds ∧ x = td.name := by
  unfold promoteClasses at h
  rcases List.mem_map.mp h with ⟨c, hc, hx⟩
  rcases List.mem_filterMap.mp hc with ⟨td, htd, hsome⟩
  refine ⟨td, htd, ?_⟩
  split at hsome
  · simp only [Option.some.injEq] at hsome
    subst hsome
    exact hx.symm
  · simp at hsome

theorem mem_promoteClasses_methods (pref : String) (fn : List String) (tds : List Typedef)
    (c : Class) (h : c ∈ promoteClasses pref fn tds) : c.methods = [] := by
  unfold promoteClasses at h
  rcases List.mem_filterMap.mp h with ⟨td, htd, hsome⟩
  split at hsome
  · simp only [Option.some.injEq] at hsome
    subst hsome
    rfl
  · simp at hsome

theorem declNames_initialNs (fn : List String) (T : List Typedef) (FT : List FunctionTypedef)
    (spec : String × Option String) (x : String)
    (h : x ∈ Namespace.declNames (initialNs fn T FT spec)) :
    pyStartswith x spec.1 = true := by
  unfold initialNs Namespace.declNames at h
  simp only [List.map_nil, List.nil_append, List.mem_append] at h
  rcases h with (h1 | h2) | h3
  · rcases mem_promoteClasses_types spec.1 fn _ x h1 with ⟨td, htd, hx⟩
    have := (List.mem_filter.mp htd).2
    rw [hx]
    exact this
  · rcases List.mem_flatten.mp h2 with ⟨l, hl, hx⟩
    rcases List.mem_map.mp hl with ⟨c, hc, hcl⟩
    have hm := mem_promoteClasses_methods spec.1 fn _ c hc
    rw [← hcl, hm] at hx
    simp at hx
  · rcases List.mem_map.mp h3 with ⟨ftd, hftd, hx⟩
    have h4 := List.mem_filter.mp hftd
    have h5 := (List.mem_filter.mp h4.1).2
    rw [← hx]
    exact h5

theorem buildOne_names_sub (fn ftn : List String) (F : List Function) (T : List Typedef)
    (FT : List FunctionTypedef) (done : List Namespace) (spec : String × Option String) (x : String)
    (h : x ∈ modelNames (buildOne fn ftn F T FT done spec)) :
    x ∈ modelNames done ∨ pyStartswith x spec.1 = true := by
  unfold buildOne at h
  rcases foldl_assign_names_sub ftn _ _ x h with h1 | ⟨f, hf, hx⟩
  · rw [modelNames_middle done _ []] at h1
    simp only [List.mem_append] at h1
    rcases h1 with h2 | h3 | h4
    · exact Or.inl h2
    · exact Or.inr (declNames_initialNs fn T FT spec x h3)
    · simp [modelNames] at h4
  · have := (List.mem_filter.mp hf).2
    rw [hx]
    exact Or.inr this

theorem buildOne_names_mono (fn ftn : List String) (F : List Function) (T : List Typedef)
    (FT : List FunctionTypedef) (done : List Namespace) (spec : String × Option String) (x : String)
    (h : x ∈ modelNames done) :
    x ∈ modelNames (buildOne fn ftn F T FT done spec) := by
  unfold buildOne
  apply foldl_assign_names_mono
  rw [modelNames_append]
  exact List.mem_append.mpr (Or.inl h)

theorem buildOne_fmem (fn ftn : List String) (F : List Function) (T : List Typedef)
    (FT : List FunctionTypedef) (done : List Namespace) (spec : String × Option String)
    (f : Function) (hf : f ∈ F) (hpref : pyStartswith f.original_function spec.1 = true) :
    f.original_function ∈ modelNames (buildOne fn ftn F T FT done spec) := by
  unfold buildOne
  apply foldl_assign_mem
  · exact List.mem_filter.mpr ⟨hf, hpref⟩
  · simp

theorem buildModel_names_sub (r : CollectResult) (x : String)
    (h : x ∈ modelNames (buildModel r)) :
    pyStartswith x ("nats") = true ∨ pyStartswith x ("stan") = true := by
  unfold buildModel nsSpecs at h
  rw [List.foldl_cons, List.foldl_cons, List.foldl_nil] at h
  rcases buildOne_names_sub _ _ _ _ _ _ _ x h with h1 | h2
  · rcases buildOne_names_sub _ _ _ _ _ _ _ x h1 with h3 | h4
    · simp [modelNames] at h3
    · exact Or.inl h4
  · exact Or.inr h2

theorem buildModel_fmem (r : CollectResult) (f : Function) (hf : f ∈ r.functions)
    (hpref : pyStartswith f.original_function ("nats") = true ∨
      pyStartswith f.original_function ("stan") = true) :
    f.original_function ∈ modelNames (buildModel r) := by
  unfold buildModel nsSpecs
  rw [List.foldl_cons, List.foldl_cons, List.foldl_nil]
  rcases hpref with h | h
  · exact buildOne_names_mono _ _ _ _ _ _ _ _ (buildOne_fmem _ _ _ _ _ _ _ f hf h)
  · exact buildOne_fmem _ _ _ _ _ _ _ f hf h

/-! ### The first loop of `parse`: what ends up in the collected lists -/

theorem Function.ofCursor_original (sp rt : String) (args : List ParamCursor) (f : Function)
    (h : Function.ofCursor sp rt args = some f) : f.original_function = sp := by
  unfold Function.ofCursor at h
  split at h
  · simp only [Option.some.injEq] at h
    subst h
    rfl
  · simp at h

theorem collectStep_functions_sub (d : Decl) (r r2 : CollectResult)
    (h : collectStep d r = some r2) (f : Function) (hf : f ∈ r.functions) : f ∈ r2.functions := by
  unfold collectStep at h
  split at h
  · simp only [Option.some.injEq] at h
    subst h
    exact hf
  · split at h
    · rcases Option.map_eq_some'.mp h with ⟨g, hg, hr2⟩
      subst hr2
      exact List.mem_cons_of_mem _ hf
    · split at h
      · simp only [Option.some.injEq] at h
        subst h
        exact hf
      · split at h
        · simp only [Option.some.injEq] at h
          subst h
          exact hf
        · split at h
          · simp only [Option.some.injEq] at h
            subst h
            exact hf
          · rcases Option.map_eq_some'.mp h with ⟨ftd, hftd, hr2⟩
            subst hr2
            exact hf
      · rcases Option.map_eq_some'.mp h with ⟨ftd, hftd, hr2⟩
        subst hr2
        exact hf
    · simp only [Option.some.injEq] at h
      subst h
      exact hf

theorem collect_function_mem :
    ∀ (decls : List Decl) (r : CollectResult) (sp rt : String) (args : List ParamCursor),
      collectDecls decls = some r → Decl.functionDecl sp rt args ∈ decls →
      recognizedPrefixes.contains (pyTake 4 sp) = true →
      ∃ f, f ∈ r.functions ∧ f.original_function = sp := by
  intro decls
  induction decls with
  | nil =>
    intro r sp rt args h hmem
    simp at hmem
  | cons d ds ih =>
    intro r sp rt args h hmem hpref
    unfold collectDecls at h
    cases hds : collectDecls ds with
    | none =>
      rw [hds] at h
      simp at h
    | some r2 =>
      rw [hds] at h
      rcases List.mem_cons.mp hmem with heq | hmem2
      · subst heq
        unfold collectStep at h
        simp only [Decl.spelling, hpref, Bool.not_true, Bool.false_eq_true, if_false] at h
        rcases Option.map_eq_some'.mp h with ⟨f, hf, hr⟩
        subst hr
        exact ⟨f, by simp, Function.ofCursor_original sp rt args f hf⟩
      · rcases ih r2 sp rt args hds hmem2 hpref with ⟨f, hf, hname⟩
        exact ⟨f, collectStep_functions_sub d r2 r h f hf, hname⟩

theorem startswith_take4 (s p : String) (hp : p.toList.length = 4) (h : pyStartswith s p = true) :
    pyTake 4 s = p := by
  unfold pyStartswith at h
  rcases List.isPrefixOf_iff_prefix.mp h with ⟨t, ht⟩
  unfold pyTake
  rw [← ht, ← hp, List.take_left]
  rfl

theorem pref_contains (s : String)
    (h : pyStartswith s ("nats") = true ∨ pyStartswith s ("stan") = true) :
    recognizedPrefixes.contains (pyTake 4 s) = true := by
  rcases h with h | h
  · rw [startswith_take4 s ("nats") (by decide) h]
    decide
  · rw [startswith_take4 s ("stan") (by decide) h]
    decide

theorem mem_buildModel_fts (r : CollectResult) (ns : Namespace) (h : ns ∈ buildModel r) :
    ∀ ftd ∈ ns.function_typedefs, ftd.has_closure = true := by
  intro ftd hftd
  have hmap : nsProj ns ∈ (buildModel r).map nsProj := List.mem_map_of_mem nsProj h
  rw [buildModel_proj] at hmap
  have hfts : ns.function_typedefs =
      ((r.function_typedefs.filter fun ftd => pyStartswith ftd.original_name ("nats")).filter
        fun ftd => ftd.has_closure) ∨
      ns.function_typedefs =
      ((r.function_typedefs.filter fun ftd => pyStartswith ftd.original_name ("stan")).filter
        fun ftd => ftd.has_closure) := by
    rcases List.mem_cons.mp hmap with h1 | h2
    · exact Or.inl (congrArg (fun t : String × Option String × List String × List FunctionTypedef => t.2.2.2) h1)
    · rcases List.mem_cons.mp h2 with h3 | h4
      · exact Or.inr (congrArg (fun t : String × Option String × List String × List FunctionTypedef => t.2.2.2) h3)
      · simp at h4
  rcases hfts with hf | hf
  · rw [hf] at hftd
    exact (List.mem_filter.mp hftd).2
  · rw [hf] at hftd
    exact (List.mem_filter.mp hftd).2

/-! ### The claims -/

/-- C10: for every input declaration sequence on which `parse` completes
(including the empty one), the output model has exactly two namespaces, named
`nats` and `stan` in that order; `nats` carries no build guard and `stan`
carries the build guard `defined(NATS_HAS_STREAMING)`; no other namespace is
ever produced, and both namespaces are present even when no declaration
carries their prefix. -/
theorem C10_fixed_namespaces (decls : List Decl) (nss : List Namespace)
    (h : parseDecls decls = some nss) :
    nss.length = 2 ∧
    nss.map (fun ns => ns.name) = ["nats", "stan"] ∧
    nss.map (fun ns => ns.include_guard) = [none, some ("defined(NATS_HAS_STREAMING)")] := by
  unfold parseDecls at h
  rcases Option.map_eq_some'.mp h with ⟨r, hr, hbm⟩
  subst hbm
  have hproj := buildModel_proj r
  refine ⟨?_, ?_, ?_⟩
  · have hlen := congrArg List.length hproj
    simpa using hlen
  · have h2 := congrArg
      (List.map (fun t : String × Option String × List String × List FunctionTypedef => t.1)) hproj
    simp only [List.map_map] at h2
    simpa [nsProj, Function.comp] using h2
  · have h2 := congrArg
      (List.map (fun t : String × Option String × List String × List FunctionTypedef => t.2.1)) hproj
    simp only [List.map_map] at h2
    simpa [nsProj, Function.comp] using h2

/-- Witness for C10: the empty declaration list yields exactly the two fixed
namespaces. -/
theorem C10_fixed_namespaces_witness :
    emptyModel.length = 2 ∧
    emptyModel.map (fun ns => ns.name) = ["nats", "stan"] ∧
    emptyModel.map (fun ns => ns.include_guard) = [none, some ("defined(NATS_HAS_STREAMING)")] :=
  C10_fixed_namespaces [] emptyModel (by decide)

/-- C2: whenever the first loop of `parse` completes, the classes of each
produced namespace are, in order, exactly the plain typedefs with that
namespace's prefix for which the function set holds a function named exactly
the typedef's name concatenated with `_Destroy`; in particular a typedef
without such a destructor function contributes no class. -/
theorem C2_class_promotion (decls : List Decl) (r : CollectResult)
    (h : collectDecls decls = some r) :
    parseDecls decls = some (buildModel r) ∧
    (buildModel r).map (fun ns => ns.classes.map (fun c => c.original_type)) =
      [promotedNames ("nats") (r.functions.map fun f => f.original_function) r.typedefs,
       promotedNames ("stan") (r.functions.map fun f => f.original_function) r.typedefs] := by
  constructor
  · unfold parseDecls
    rw [h]
    rfl
  · have hproj := buildModel_proj r
    have h2 := congrArg
      (List.map (fun t : String × Option String × List String × List FunctionTypedef => t.2.2.1)) hproj
    simp only [List.map_map] at h2
    simpa [nsProj, Function.comp] using h2

/-- Witness for C2: typedefs `natsBaz` (with `natsBaz_Destroy` present) and
`natsBar` (no destructor): only `natsBaz` is promoted, `natsBar` appears in no
class list. -/
theorem C2_class_promotion_witness :
    (buildModel promoCollect).map (fun ns => ns.classes.map (fun c => c.original_type)) =
      [["natsBaz"], []] := by
  have h := (C2_class_promotion promoDecls promoCollect (by decide)).2
  rw [h]
  decide

/-- C3 (amended): a declaration name appears in the output model only if it
starts with a recognized namespace prefix, and every function declaration
whose name starts with a recognized prefix does appear; but — contrary to the
claim as stated — prefix-matching enums, plain typedefs without a matching
destructor, and function-pointer typedefs without the closure convention
appear nowhere in the output. -/
theorem C3_output_prefix_only (decls : List Decl) (nss : List Namespace)
    (h : parseDecls decls = some nss) :
    (∀ x, x ∈ modelNames nss → pyStartswith x ("nats") = true ∨ pyStartswith x ("stan") = true) ∧
    (∀ sp rt args, Decl.functionDecl sp rt args ∈ decls →
      (pyStartswith sp ("nats") = true ∨ pyStartswith sp ("stan") = true) →
      sp ∈ modelNames nss) := by
  unfold parseDecls at h
  rcases Option.map_eq_some'.mp h with ⟨r, hr, hbm⟩
  subst hbm
  constructor
  · intro x hx
    exact buildModel_names_sub r x hx
  · intro sp rt args hmem hpref
    rcases collect_function_mem decls r sp rt args hr hmem (pref_contains sp hpref) with ⟨f, hf, hname⟩
    have hin := buildModel_fmem r f hf (by rw [hname]; exact hpref)
    rw [hname] at hin
    exact hin

/-- Counterexample to C3 as stated: the enum typedef `natsFruit` matches the
recognized prefix `nats`, yet no trace of it appears anywhere in the output
model (the claim asserts every prefix-matching declaration appears). -/
theorem C3_enum_counterexample :
    pyStartswith ("natsFruit") ("nats") = true ∧
    parseDecls [Decl.typedefDecl ("natsFruit") [enumChild]] = some emptyModel ∧
    ("natsFruit" ∈ modelNames emptyModel → False) := by
  refine ⟨by decide, by decide, by decide⟩

/-- Witness for C3 (amended) at a single prefixed function declaration. -/
theorem C3_output_prefix_only_witness :
    "nats_Open" ∈ modelNames openModel :=
  (C3_output_prefix_only [Decl.functionDecl ("nats_Open") ("natsStatus") []] openModel
      (by decide)).2
    ("nats_Open") ("natsStatus") [] (by simp) (Or.inl (by decide))

/-- C4: a callback descriptor with adaptation rules is produced iff the final
recovered parameter's name equals the reserved closure identifier `closure`.
In the produced descriptor the adapted lists exclude the trailing closure
parameter; every non-trailing parameter whose type is in the typedef's own
namespace and is not the status-code type `natsStatus` is wrapped — the
designated message type `natsMsg` passed by value via move-construction from
the raw handle, every other such type by reference to a non-owning temporary
wrapper with a recorded one-line wrapping rule — and all other parameters pass
through unchanged.  Without the closure convention no adaptation exists and
the typedef is excluded from the callback sets of every produced namespace. -/
theorem C4_callback_descriptor (sp : String) (children : List ChildCursor) (ftd : FunctionTypedef)
    (h : FunctionTypedef.ofCursor sp children = some ftd) :
    (∃ lastp, ftd.original_parameters.getLast? = some lastp ∧
      ftd.has_closure = (lastp.name == "closure")) ∧
    (ftd.has_closure = false →
      ftd.arguments_ = [] ∧ ftd.parameters_ = [] ∧ ftd.wrapper = [] ∧
      ∀ (r : CollectResult) (ns : Namespace), ns ∈ buildModel r → ftd ∉ ns.function_typedefs) ∧
    (ftd.has_closure = true →
      ftd.arguments_ = ftd.original_parameters.dropLast.map (specAdaptedArgument ftd.nspace) ∧
      ftd.parameters_ = ftd.original_parameters.dropLast.map (specAdaptedParameter ftd.nspace) ∧
      ftd.wrapper = ftd.original_parameters.dropLast.filterMap (specWrapRule ftd.nspace)) := by
  unfold FunctionTypedef.ofCursor at h
  split at h
  · simp at h
  · rename_i lastp heq
    split at h
    · rename_i hcl
      simp only [Option.some.injEq] at h
      subst h
      refine ⟨⟨lastp, heq, rfl⟩, ?_, ?_⟩
      · intro hfc
        exact absurd hfc (by simp [hcl])
      · intro _
        refine ⟨?_, ?_, ?_⟩
        · show (adaptLoop (pyTake 4 sp) ((FunctionTypedef.paramsOf children).dropLast)).1 = _
          rw [adaptLoop_eq]
        · show (adaptLoop (pyTake 4 sp) ((FunctionTypedef.paramsOf children).dropLast)).2.1 = _
          rw [adaptLoop_eq]
        · show (adaptLoop (pyTake 4 sp) ((FunctionTypedef.paramsOf children).dropLast)).2.2 = _
          rw [adaptLoop_eq]
    · rename_i hcl
      have hfalse : (lastp.name == "closure") = false := by simpa using hcl
      simp only [Option.some.injEq] at h
      subst h
      refine ⟨⟨lastp, heq, rfl⟩, ?_, ?_⟩
      · intro _
        refine ⟨rfl, rfl, rfl, ?_⟩
        intro r ns hns hmem
        have hcls := mem_buildModel_fts r ns hns _ hmem
        exact absurd hcls (by simp [hfalse])
      · intro hfc
        exact absurd hfc (by simp [hfalse])

/-- Witness for C4 at the `natsMsgHandler` scenario of the specification:
the descriptor wraps `natsMsg *` by move as `Msg &&` and `natsConnection *`
by a non-owning reference `Connection &` with a recorded wrapping rule, and
the adapted signature drops the closure parameter. -/
theorem C4_callback_descriptor_witness :
    msgHandlerFtd.has_closure = true ∧
    msgHandlerFtd.parameters_ =
      msgHandlerFtd.original_parameters.dropLast.map (specAdaptedParameter msgHandlerFtd.nspace) ∧
    msgHandlerFtd.parameters_ = ["Connection &", "Msg &&"] ∧
    msgHandlerFtd.wrapper = ["Connection::WithoutDestuction nc_(nc)"] := by
  have h := C4_callback_descriptor ("natsMsgHandler") msgHandlerChildren msgHandlerFtd (by decide)
  exact ⟨by decide, (h.2.2 (by decide)).2.1, by decide, by decide⟩

/-- C1: for a parameter whose type spelling, after stripping its leading
`const ` qualifier, starts with the class's original type name (the code tests
the equivalent `replace`-based condition `receiverCond`, which agrees with the
leading-strip reading on every type spelling clang produces): with two levels
of pointer indirection the method is marked a constructor and the parameter
becomes the hidden output receiver (dispatched as `&self`, contributing no
visible parameter); otherwise it becomes the implicit instance receiver
(dispatched as `self`, contributing no visible parameter) and the method is
const exactly when the type spelling carries a leading `const ` qualifier. -/
theorem C1_receiver_rule (cls : Class) (fts : List String) (m : Method) (p : FunctionParameter)
    (_hstrip : pyStartswith (stripLeadingConst p.type) cls.original_type = true)
    (hcode : receiverCond cls p = true) :
    (pyCountChar p.type '*' = 2 →
      (methodStep cls fts m p).is_constructor = true ∧
      (methodStep cls fts m p).arguments_ = m.arguments_ ++ ["&self"] ∧
      (methodStep cls fts m p).parameters_ = m.parameters_) ∧
    (pyCountChar p.type '*' ≠ 2 →
      (methodStep cls fts m p).arguments_ = m.arguments_ ++ ["self"] ∧
      (methodStep cls fts m p).parameters_ = m.parameters_ ∧
      (methodStep cls fts m p).is_const = pyStartswith p.type ("const ")) := by
  constructor
  · intro hst
    unfold methodStep
    simp [hcode, hst]
  · intro hst
    have hb : (pyCountChar p.type '*' == 2) = false := by
      simp [hst]
    unfold methodStep
    simp [hcode, hb]

/-- Witness for C1 at `natsConnection_IsClosed(const natsConnection *nc)`:
the parameter is the instance receiver and the method is const. -/
theorem C1_receiver_rule_witness :
    (methodStep connClass [] (Method.init isClosedFn) constConnParam).arguments_ =
      (Method.init isClosedFn).arguments_ ++ ["self"] ∧
    (methodStep connClass [] (Method.init isClosedFn) constConnParam).parameters_ =
      (Method.init isClosedFn).parameters_ ∧
    (methodStep connClass [] (Method.init isClosedFn) constConnParam).is_const =
      pyStartswith constConnParam.type ("const ") :=
  (C1_receiver_rule connClass [] (Method.init isClosedFn) constConnParam (by decide)
      (by decide)).2 (by decide)

/-- C5: a parameter that escapes the receiver rule but has two levels of
pointer indirection and a type spelling starting with the class's namespace
prefix (so its plain type starts with that prefix too) makes the method
produce a temporary object of the other class: the method's result type is
overridden to that class's short name (the plain type with the 4-character
prefix removed, `hshort` pinning the prefix to occur only at the front, as in
every clang-produced spelling), taking precedence over the declared result
type; the parameter is dispatched as `&ret.self` and contributes no visible
parameter. -/
theorem C5_temporary_output (cls : Class) (fts : List String) (m : Method) (p : FunctionParameter)
    (hrecv : receiverCond cls p = false)
    (hstars : pyCountChar p.type '*' = 2)
    (hns : pyStartswith p.type cls.nspace = true)
    (_hplain : pyStartswith p.plain_type cls.nspace = true)
    (hshort : pyReplace p.plain_type cls.nspace ("") = pyDrop 4 p.plain_type)
    (hne : pyDrop 4 p.plain_type ≠ "") :
    (methodStep cls fts m p).temporary_object = some (pyDrop 4 p.plain_type) ∧
    (methodStep cls fts m p).arguments_ = m.arguments_ ++ ["&ret.self"] ∧
    (methodStep cls fts m p).parameters_ = m.parameters_ ∧
    (methodStep cls fts m p).result_type = pyDrop 4 p.plain_type := by
  have htc : temporaryCond cls p = true := by
    unfold temporaryCond
    simp [hstars, hns]
  have hstep : methodStep cls fts m p =
      { m with temporary_object := some (pyReplace p.plain_type cls.nspace (""))
               arguments_ := m.arguments_ ++ ["&ret.self"] } := by
    unfold methodStep
    simp [hrecv, htc]
  rw [hstep]
  refine ⟨by simp [hshort], rfl, rfl, ?_⟩
  unfold Method.result_type
  simp [hshort, hne]

/-- Witness for C5 at `natsSubscription **sub` on class `natsConnection`:
the result type is overridden to `Subscription`. -/
theorem C5_temporary_output_witness :
    (methodStep connClass [] (Method.init subscribeFn) subOutParam).temporary_object =
      some (pyDrop 4 subOutParam.plain_type) ∧
    (methodStep connClass [] (Method.init subscribeFn) subOutParam).result_type =
      pyDrop 4 subOutParam.plain_type :=
  ⟨(C5_temporary_output connClass [] (Method.init subscribeFn) subOutParam (by decide) (by decide)
      (by decide) (by decide) (by decide) (by decide)).1,
   (C5_temporary_output connClass [] (Method.init subscribeFn) subOutParam (by decide) (by decide)
      (by decide) (by decide) (by decide) (by decide)).2.2.2⟩

/-- C6 (amended): for every generated method, the number of template-type
slots equals the number of parameters the classifier matches as callbacks —
those whose exact type spelling is a known descriptor name AND that escape
the receiver and temporary-output rules — and the slots are named
`T1, T2, ...` in strictly increasing order of the position at which each such
parameter is encountered.  (The claim as stated counts every parameter whose
spelling matches a descriptor name; the receiver rule can shadow such a
parameter, see the counterexample.) -/
theorem C6_template_slots (f : Function) (cls : Class) (fts : List String) :
    (Method.ofFunction f cls fts).type_number = countCb cls fts f.parameters ∧
    (Method.ofFunction f cls fts).template_parameter_.length = 2 * countCb cls fts f.parameters ∧
    evenIdx (Method.ofFunction f cls fts).template_parameter_ =
      (List.range (countCb cls fts f.parameters)).map
        (fun i => "typename " ++ ("T" ++ toString (i + 1))) := by
  unfold Method.ofFunction
  rcases method_fold_template cls fts f.parameters (Method.init f) with ⟨hfn, hn, ht⟩
  rcases tmplPairs_even ((Method.init f).function.nspace) cls fts f.parameters
      ((Method.init f).type_number) with ⟨he, hl⟩
  refine ⟨?_, ?_, ?_⟩
  · rw [hn]
    show 0 + countCb cls fts f.parameters = countCb cls fts f.parameters
    omega
  · rw [ht]
    simp only [show (Method.init f).template_parameter_ = [] from rfl, List.nil_append]
    exact hl
  · rw [ht]
    simp only [show (Method.init f).template_parameter_ = [] from rfl, List.nil_append]
    rw [he]
    apply List.map_congr_left
    intro i _
    have hz : (Method.init f).type_number + i + 1 = i + 1 := by
      simp [Method.init]
    rw [hz]

/-- Counterexample to C6 as stated: `natsConnection_SetHandler(natsConnection *,
natsConnectionHandler, void *)` on class `natsConnection` with descriptor set
`[natsConnectionHandler]` has exactly one parameter whose exact spelling
matches a descriptor name, yet zero template-type parameters are generated:
the spelling `natsConnectionHandler` starts with the class's type name, so the
receiver rule captures it first. -/
theorem C6_shadowed_callback_counterexample :
    (setHandlerFn.parameters.filter
      (fun p => (["natsConnectionHandler"] : List String).contains p.type)).length = 1 ∧
    (Method.ofFunction setHandlerFn connClass ["natsConnectionHandler"]).template_parameter_ = [] ∧
    ((evenIdx (Method.ofFunction setHandlerFn connClass
          ["natsConnectionHandler"]).template_parameter_).length =
      (setHandlerFn.parameters.filter
        (fun p => (["natsConnectionHandler"] : List String).contains p.type)).length → False) := by
  refine ⟨by decide, by decide, by decide⟩

/-- C7 (amended): for `natsFoo_SetCallback(natsFoo *, natsMsgHandler, void *)`
on promoted class `natsFoo` with known descriptor `natsMsgHandler`, the
generated method has exactly one template-type parameter `T1` (plus the bound
callback-value slot `MsgHandler<T1> callback1`); the receiver is consumed, but
— contrary to the claim as stated — the callback and closure parameters remain
in the method's raw public parameter list, while the forwarded parameter list
replaces both by the single entry `T1 * closure`; the forwarded call passes
the generic adapter bound to `T1` plus the original closure argument name. -/
theorem C7_setcallback_scenario :
    Function.ofCursor ("natsFoo_SetCallback") ("natsStatus") setCallbackArgs = some setCallbackFn ∧
    evenIdx (Method.ofFunction setCallbackFn fooClass ["natsMsgHandler"]).template_parameter_ =
      ["typename T1"] ∧
    (Method.ofFunction setCallbackFn fooClass ["natsMsgHandler"]).template_parameter_ =
      ["typename T1", "MsgHandler<T1> callback1"] ∧
    (Method.ofFunction setCallbackFn fooClass ["natsMsgHandler"]).parameters_ =
      ["natsMsgHandler cb", "void * closure"] ∧
    (Method.ofFunction setCallbackFn fooClass ["natsMsgHandler"]).forward_parameters_ =
      ["T1 * closure"] ∧
    (Method.ofFunction setCallbackFn fooClass ["natsMsgHandler"]).forward_arguments_ =
      ["&MsgHandlerCallback<T1, callback1>", "closure"] ∧
    (Method.ofFunction setCallbackFn fooClass ["natsMsgHandler"]).arguments_ =
      ["self", "cb", "closure"] := by
  refine ⟨by decide, by decide, by decide, by decide, by decide, by decide, by decide⟩

/-- Counterexample to C7 as stated: in the same scenario the method's public
parameter list is not empty — both the callback parameter and the trailing
closure parameter appear in it. -/
theorem C7_setcallback_counterexample :
    (Method.ofFunction setCallbackFn fooClass ["natsMsgHandler"]).parameters_ =
      ["natsMsgHandler cb", "void * closure"] ∧
    ((Method.ofFunction setCallbackFn fooClass ["natsMsgHandler"]).parameters_ = [] → False) := by
  refine ⟨by decide, by decide⟩

/-- C8 (amended): a function whose declared result type is the status-code
type `natsStatus` normalizes with public result type void and the
raises-on-failure flag set, and its dispatched call is wrapped in the
status-checking construct `Exception::CheckResult(...)` — for global functions
and methods alike; a method's public result type is void unless a
temporary-output parameter overrides it (the override of C5 takes precedence,
contrary to the claim as stated).  A function with any other result type keeps
its declared result type and has the flag false. -/
theorem C8_status_result (sp rt : String) (args : List ParamCursor) (f : Function)
    (h : Function.ofCursor sp rt args = some f) :
    (get_type rt = "natsStatus" →
      f.result_type = "void" ∧ f.with_exception = true ∧
      (GlobalFunction.ofFunction f).invocation =
        "Exception::CheckResult(" ++
          (sp ++ "(" ++ pyJoin (", ") (GlobalFunction.ofFunction f).arguments_ ++ ")") ++ ")" ∧
      ∀ (cls : Class) (fts : List String),
        (Method.ofFunction f cls fts).invocation =
          "Exception::CheckResult(" ++
            (sp ++ "(" ++ pyJoin (", ") (Method.ofFunction f cls fts).arguments_ ++ ")") ++ ")" ∧
        ((Method.ofFunction f cls fts).temporary_object = none →
          (Method.ofFunction f cls fts).result_type = "void")) ∧
    (get_type rt ≠ "natsStatus" →
      f.result_type = get_type rt ∧ f.with_exception = false) := by
  unfold Function.ofCursor at h
  split at h
  · simp only [Option.some.injEq] at h
    subst h
    constructor
    · intro hrt
      have hbeq : (get_type rt == "natsStatus") = true := by simp [hrt]
      refine ⟨by simp [hbeq], by simp [hbeq], ?_, ?_⟩
      · unfold GlobalFunction.invocation invocationString GlobalFunction.ofFunction
        simp [hbeq]
      · intro cls fts
        constructor
        · unfold Method.invocation invocationString
          rw [Method.ofFunction_function]
          simp [hbeq]
        · intro hnone
          unfold Method.result_type
          rw [hnone, Method.ofFunction_function]
          simp [hbeq]
    · intro hrt
      have hbeq : (get_type rt == "natsStatus") = false := by simp [hrt]
      exact ⟨by simp [hbeq], by simp [hbeq]⟩
  · simp at h

/-- Counterexample to C8 as stated: `natsConnection_Subscribe` declares the
result type `natsStatus`, yet its method binding's public result type is the
temporary-output override `Subscription`, not void. -/
theorem C8_temporary_result_counterexample :
    Function.ofCursor ("natsConnection_Subscribe") ("natsStatus") subscribeArgs = some subscribeFn ∧
    subscribeFn.with_exception = true ∧
    (Method.ofFunction subscribeFn connClass []).result_type = "Subscription" ∧
    ((Method.ofFunction subscribeFn connClass []).result_type = "void" → False) := by
  refine ⟨by decide, by decide, by decide, by decide⟩

/-- Witness for C8 (amended) at `natsStatus nats_Flush()`. -/
theorem C8_status_result_witness :
    flushFn.result_type = "void" ∧ flushFn.with_exception = true ∧
    (GlobalFunction.ofFunction flushFn).invocation = "Exception::CheckResult(nats_Flush())" := by
  have h := (C8_status_result ("nats_Flush") ("natsStatus") [] flushFn (by decide)).1 (by decide)
  refine ⟨h.1, h.2.1, ?_⟩
  rw [h.2.2.1]
  decide

theorem functionOfCursor_isSome (sp rt : String) (args : List ParamCursor)
    (h : 2 ≤ (pySplit2 sp).length) : (Function.ofCursor sp rt args).isSome = true := by
  unfold Function.ofCursor
  cases hsp : pySplit2 sp with
  | nil => rw [hsp] at h; simp at h
  | cons a l =>
    cases l with
    | nil => rw [hsp] at h; simp at h
    | cons b l2 => simp

theorem functionTypedefOfCursor_isSome (sp : String) (children : List ChildCursor)
    (h : ∃ c, c ∈ children ∧ (c.kind == ChildKind.typeRef) = false) :
    (FunctionTypedef.ofCursor sp children).isSome = true := by
  rcases h with ⟨c, hc, hk⟩
  have hmem : FunctionParameter.ofCursor c.type c.spelling ∈ FunctionTypedef.paramsOf children := by
    unfold FunctionTypedef.paramsOf
    refine List.mem_filterMap.mpr ⟨c, hc, ?_⟩
    rw [hk]
    simp
  have hne : FunctionTypedef.paramsOf children ≠ [] := by
    intro hnil
    rw [hnil] at hmem
    simp at hmem
  unfold FunctionTypedef.ofCursor
  cases hgl : (FunctionTypedef.paramsOf children).getLast? with
  | none => exact absurd (List.getLast?_eq_none_iff.mp hgl) hne
  | some lastp =>
    split
    · rename_i heq2
      simp at heq2
    · split <;> simp

theorem collectStep_isSome (d : Decl) (r : CollectResult)
    (hf : ∀ sp rt args, d = Decl.functionDecl sp rt args →
      recognizedPrefixes.contains (pyTake 4 sp) = true → 2 ≤ (pySplit2 sp).length)
    (ht : ∀ sp children, d = Decl.typedefDecl sp children →
      recognizedPrefixes.contains (pyTake 4 sp) = true → isFtdShape children = true →
      ∃ c, c ∈ children ∧ (c.kind == ChildKind.typeRef) = false) :
    (collectStep d r).isSome = true := by
  cases d with
  | otherDecl sp =>
    unfold collectStep
    split
    · simp
    · simp
  | functionDecl sp rt args =>
    unfold collectStep
    split
    · simp
    · rename_i hguard
      have hpref : recognizedPrefixes.contains (pyTake 4 sp) = true := by
        simpa [Decl.spelling] using hguard
      have hs := functionOfCursor_isSome sp rt args (hf sp rt args rfl hpref)
      simpa using hs
  | typedefDecl sp children =>
    unfold collectStep
    split
    · simp
    · rename_i hguard
      have hpref : recognizedPrefixes.contains (pyTake 4 sp) = true := by
        simpa [Decl.spelling] using hguard
      cases children with
      | nil => simp
      | cons c cs =>
        cases cs with
        | nil =>
          cases h1 : c.kind == ChildKind.enumDecl with
          | true => simp [h1]
          | false =>
            cases h2 : c.kind == ChildKind.typeRef with
            | true => simp [h1, h2]
            | false =>
              have hshape : isFtdShape [c] = true := by
                unfold isFtdShape
                simp [h1, h2]
              have hs := functionTypedefOfCursor_isSome sp [c] (ht sp [c] rfl hpref hshape)
              simp only [h1, h2]
              simpa using hs
        | cons c2 cs2 =>
          have hshape : isFtdShape (c :: c2 :: cs2) = true := rfl
          have hs := functionTypedefOfCursor_isSome sp (c :: c2 :: cs2)
            (ht sp (c :: c2 :: cs2) rfl hpref hshape)
          simpa using hs

theorem collectDecls_isSome (decls : List Decl)
    (hf : ∀ sp rt args, Decl.functionDecl sp rt args ∈ decls →
      recognizedPrefixes.contains (pyTake 4 sp) = true → 2 ≤ (pySplit2 sp).length)
    (ht : ∀ sp children, Decl.typedefDecl sp children ∈ decls →
      recognizedPrefixes.contains (pyTake 4 sp) = true → isFtdShape children = true →
      ∃ c, c ∈ children ∧ (c.kind == ChildKind.typeRef) = false) :
    (collectDecls decls).isSome = true := by
  induction decls with
  | nil => simp [collectDecls]
  | cons d ds ih =>
    have ihs := ih (fun sp rt args hm => hf sp rt args (List.mem_cons_of_mem d hm))
      (fun sp ch hm => ht sp ch (List.mem_cons_of_mem d hm))
    unfold collectDecls
    cases hds : collectDecls ds with
    | none =>
      rw [hds] at ihs
      simp at ihs
    | some r =>
      exact collectStep_isSome d r
        (fun sp rt args heq => hf sp rt args (List.mem_cons.mpr (Or.inl heq.symm)))
        (fun sp ch heq => ht sp ch (List.mem_cons.mpr (Or.inl heq.symm)))

/-- C9 (amended): the transformation is total on every declaration sequence in
which each function declaration whose first four characters match a recognized
prefix has an underscore in its name (so that the second underscore-delimited
segment exists) and each prefix-matching typedef walked as a function-pointer
typedef recovers at least one parameter.  Declarations failing the prefix test
are skipped before normalization and can never crash the pass, whatever their
shape.  Contrary to the claim as stated, a prefixed function name without an
underscore, or a prefixed function-pointer typedef with an empty recovered
parameter list, raises an `IndexError` and aborts the whole pass (see the
counterexample). -/
theorem C9_totality (decls : List Decl)
    (hf : ∀ sp rt args, Decl.functionDecl sp rt args ∈ decls →
      recognizedPrefixes.contains (pyTake 4 sp) = true → 2 ≤ (pySplit2 sp).length)
    (ht : ∀ sp children, Decl.typedefDecl sp children ∈ decls →
      recognizedPrefixes.contains (pyTake 4 sp) = true → isFtdShape children = true →
      ∃ c, c ∈ children ∧ (c.kind == ChildKind.typeRef) = false) :
    (parseDecls decls).isSome = true := by
  unfold parseDecls
  have hs := collectDecls_isSome decls hf ht
  simpa using hs

/-- Counterexample to C9 as stated: the prefixed function name `natsOpen`
holds no underscore, so normalizing it fails (Python `IndexError` on
`token[1]`) and `parse` produces no model at all; likewise a function-pointer
typedef with an empty recovered parameter list fails on
`original_parameters[-1]`. -/
theorem C9_crash_counterexample :
    pyTake 4 ("natsOpen") = "nats" ∧
    Function.ofCursor ("natsOpen") ("void") [] = none ∧
    FunctionTypedef.ofCursor ("natsOnEvent") noParamChildren = none ∧
    parseDecls [Decl.functionDecl ("natsOpen") ("void") []] = none := by
  refine ⟨by decide, by decide, by decide, by decide⟩

/-- Witness for C9 (amended) at a well-formed declaration list that also
holds a non-prefixed, underscore-free function (`puts`): the prefix test
skips it, so the pass still completes. -/
theorem C9_totality_witness : (parseDecls c9wDecls).isSome = true := by
  apply C9_totality
  · intro sp rt args hmem hpref
    simp only [c9wDecls, List.mem_cons] at hmem
    rcases hmem with h | h | h | h
    · obtain ⟨rfl, rfl, rfl⟩ := Decl.functionDecl.inj h
      decide
    · obtain ⟨rfl, rfl, rfl⟩ := Decl.functionDecl.inj h
      exact absurd hpref (by decide)
    · exact absurd h (by simp)
    · simp at h
  · intro sp children hmem hpref hshape
    simp only [c9wDecls, List.mem_cons] at hmem
    rcases hmem with h | h | h | h
    · exact absurd h (by simp)
    · exact absurd h (by simp)
    · obtain ⟨rfl, rfl⟩ := Decl.typedefDecl.inj h
      simp [isFtdShape] at hshape
    · simp at h

end CppGen
